import Mathlib

/-!
Shallow embedding of the GlobaLeaks request layer
(`backend/globaleaks/handlers/base.py`) and of the periodic PGP key check
(`backend/globaleaks/jobs/pgp_check_sched.py`), together with theorems about
the structural validator, identity resolution, upload size checks, the
streaming file producer, the execution governor and the PGP expiry scan.
-/

namespace GlobaLeaks

/-- Decoded JSON values, the result of `json.loads` in `validate_message`.
Python dicts are modelled as association lists in insertion order. -/
inductive JValue where
  | null
  | bool (b : Bool)
  | int (n : Int)
  | str (s : String)
  | list (xs : List JValue)
  | dict (kvs : List (String × JValue))

/-- The primitive python classes that occur as callable templates in
`requests.py` schemas: `int`, `bool`, text, and the
`SkipSpecificValidation` marker class. -/
inductive PyType where
  | int
  | bool
  | str
  | skip
  deriving DecidableEq

/-- Message templates, the `GLType` schemas handed to `validate_jmessage`:
a callable primitive class, a regex pattern string, a nested dict template,
or a list template (used with a single element in practice). -/
inductive Template where
  | prim (t : PyType)
  | regex (pat : String)
  | tdict (kvs : List (String × Template))
  | tlist (elems : List Template)

/-- Bool test for the python `value is None` check. -/
def jIsNull : JValue → Bool
  | .null => true
  | _ => false

/-- Bool test for python equality of a decoded value with a string literal. -/
def jIsStr (s : String) : JValue → Bool
  | .str t => t == s
  | _ => false

/-- Python truthiness of a decoded JSON value (`if not value: ...`). -/
def jfalsy : JValue → Bool
  | .null => true
  | .bool b => !b
  | .int n => n == 0
  | .str s => s == ""
  | .list xs => xs.isEmpty
  | .dict kvs => kvs.isEmpty

/-- Whether `int(value)` succeeds on a text value: optional surrounding
whitespace, an optional sign, then at least one digit. -/
def strIsInt (s : String) : Bool :=
  let t := s.trim
  let t := if t.startsWith "-" || t.startsWith "+" then t.drop 1 else t
  !t.isEmpty && t.all Char.isDigit

/-- Whether `int(value)` succeeds in `validate_python_type`:
bools and ints coerce, numeric strings parse, everything else raises. -/
def pyIntCoercible : JValue → Bool
  | .bool _ => true
  | .int _ => true
  | .str s => strIsInt s
  | _ => false

/-- Python `isinstance(value, python_type)` for decoded JSON values.
Note that `isinstance(True, bool)` and `isinstance(True, int)` hold.
No JSON value is an instance of the `SkipSpecificValidation` marker class. -/
def pyIsInstance : JValue → PyType → Bool
  | .bool _, .bool => true
  | .str _, .str => true
  | .int _, .int => true
  | .bool _, .int => true
  | _, _ => false

/-- Embeds `BaseHandler.validate_python_type` (base.py lines 159-181):
`None` always passes, the skip marker always passes, `int` accepts anything
coercible, `bool` accepts the literal strings true and false, and every
remaining case falls through to `isinstance`. -/
def validate_python_type (value : JValue) (python_type : PyType) : Bool :=
  if jIsNull value then true
  else if python_type = PyType.skip then true
  else if python_type = PyType.int then pyIntCoercible value
  else if python_type = PyType.bool &&
          (jIsStr "true" value || jIsStr "false" value) then true
  else pyIsInstance value python_type

/-- Validation outcome channels: `input` is a raised
`errors.InputValidationError`; `pytype` is an uncaught python runtime error
(AttributeError, TypeError, IndexError) escaping the validator. -/
inductive VError where
  | input (msg : String)
  | pytype (msg : String)
  deriving DecidableEq

/-- The python `key in message_template` test plus `message_template[key]`. -/
def lookupT (k : String) : List (String × Template) → Option Template
  | [] => none
  | (k1, t) :: rest => if k1 = k then some t else lookupT k rest

/-- The python `key in jmessage` test plus `jmessage[key]`. -/
def lookupJ (k : String) : List (String × JValue) → Option JValue
  | [] => none
  | (k1, v) :: rest => if k1 = k then some v else lookupJ k rest

/-- In place dict value assignment `jmessage[key] = v` for an existing key:
replaces the value, keeps the position. -/
def updateJ (k : String) (v : JValue) : List (String × JValue) → List (String × JValue)
  | [] => []
  | (k1, v1) :: rest => if k1 = k then (k1, v) :: rest else (k1, v1) :: updateJ k v rest

theorem lookupT_sizeOf {k : String} :
    ∀ {tkvs : List (String × Template)} {tv : Template},
      lookupT k tkvs = some tv → sizeOf tv < sizeOf tkvs := by
  intro tkvs
  induction tkvs with
  | nil => intro tv h; simp [lookupT] at h
  | cons e rest ih =>
    obtain ⟨k1, t1⟩ := e
    intro tv h
    rw [lookupT] at h
    by_cases he : k1 = k
    · simp [he] at h
      subst h
      simp
      omega
    · simp [he] at h
      have := ih h
      simp
      omega

mutual

/-- Embeds `BaseHandler.validate_type` (base.py lines 195-231).
The parameter `rm` abstracts the external `re.match` over the
`text_type` rendering of the value (validate_regexp, lines 183-193).
A `None` value is logged and rejected; a callable template dispatches to
`validate_python_type`; a mapping template dispatches to `validate_jmessage`
whose exceptions propagate; a string template is a regex; an iterable
template accepts any falsy value and otherwise checks every element of the
iterated value against the first element template, short circuiting like
the python `all`. Iterating a dict yields its keys, iterating a string
yields its characters, iterating an int or bool raises TypeError, and
indexing an empty template list raises IndexError. -/
def validate_type (rm : String → JValue → Bool) (value : JValue) (type : Template) :
    Except VError (Bool × JValue) :=
  match value, type with
  | .null, _ => .ok (false, .null)
  | value, .prim t => .ok (validate_python_type value t, value)
  | value, .tdict tkvs =>
    match validate_jmessage rm value (.tdict tkvs) with
    | .error e => .error e
    | .ok j => .ok (true, j)
  | value, .regex pat => .ok (rm pat value, value)
  | value, .tlist ts =>
    if jfalsy value then .ok (true, value)
    else
      match ts with
      | [] => .error (.pytype "IndexError")
      | t0 :: _ =>
        match value with
        | .list xs =>
          match validate_list_elems rm xs t0 with
          | .error e => .error e
          | .ok (b, xs1) => .ok (b, .list xs1)
        | .dict kvs =>
          match validate_list_elems rm (kvs.map (fun e => JValue.str e.1)) t0 with
          | .error e => .error e
          | .ok (b, _) => .ok (b, .dict kvs)
        | .str s =>
          match validate_list_elems rm (s.data.map (fun c => JValue.str (String.mk [c]))) t0 with
          | .error e => .error e
          | .ok (b, _) => .ok (b, .str s)
        | _ => .error (.pytype "TypeError")
  termination_by (sizeOf type, 1, 0)

/-- The python generator `all(BaseHandler.validate_type(x, type[0]) for x in value)`:
elements are validated left to right, a raised exception propagates, and the
iteration stops at the first invalid element. In place mutations performed by
nested dict validation are reflected in the returned element list. -/
def validate_list_elems (rm : String → JValue → Bool) (xs : List JValue) (t0 : Template) :
    Except VError (Bool × List JValue) :=
  match xs with
  | [] => .ok (true, [])
  | x :: rest =>
    match validate_type rm x t0 with
    | .error e => .error e
    | .ok (b, x1) =>
      if b then
        match validate_list_elems rm rest t0 with
        | .error e => .error e
        | .ok (b1, rest1) => .ok (b1, x1 :: rest1)
      else .ok (false, x1 :: rest)
  termination_by (sizeOf t0, 2, xs.length)

/-- Embeds `BaseHandler.validate_jmessage` (base.py lines 233-302).
For a dict template: pass one iterates the payload items, stripping keys
absent from the template and validating the others; pass two iterates the
template items, raising on missing keys, revalidating, and recursing into
non empty nested dict or list templates; finally the success counter is
checked against twice the template length. For a list template every
element of the payload is validated against the first element template.
Any other template raises. The returned value is the in place mutated
payload (python returns True and mutates its argument). -/
def validate_jmessage (rm : String → JValue → Bool) (jmessage : JValue)
    (message_template : Template) : Except VError JValue :=
  match message_template with
  | .tdict tkvs =>
    match jmessage with
    | .dict pkvs =>
      match vjm_pass1 rm pkvs tkvs with
      | .error e => .error e
      | .ok (kept, c1) =>
        match vjm_pass2 rm tkvs kept with
        | .error e => .error e
        | .ok (kept2, c2) =>
          if c1 + c2 ≠ tkvs.length * 2 then
            .error (.input "Success counter double check failure")
          else .ok (.dict kept2)
    | _ => .error (.pytype "AttributeError")
  | .tlist ts =>
    match jmessage with
    | .list xs =>
      match ts with
      | [] => if xs.isEmpty then .ok (.list xs) else .error (.pytype "IndexError")
      | t0 :: _ =>
        match validate_list_elems rm xs t0 with
        | .error e => .error e
        | .ok (b, xs1) =>
          if b then .ok (.list xs1)
          else .error (.input "Not every element matches the element template")
    | .dict kvs =>
      match ts with
      | [] => if kvs.isEmpty then .ok (.dict kvs) else .error (.pytype "IndexError")
      | t0 :: _ =>
        match validate_list_elems rm (kvs.map (fun e => JValue.str e.1)) t0 with
        | .error e => .error e
        | .ok (b, _) =>
          if b then .ok (.dict kvs)
          else .error (.input "Not every element matches the element template")
    | .str s =>
      match ts with
      | [] => if s.isEmpty then .ok (.str s) else .error (.pytype "IndexError")
      | t0 :: _ =>
        match validate_list_elems rm (s.data.map (fun c => JValue.str (String.mk [c]))) t0 with
        | .error e => .error e
        | .ok (b, _) =>
          if b then .ok (.str s)
          else .error (.input "Not every element matches the element template")
    | _ => .error (.pytype "TypeError")
  | _ => .error (.input "invalid json massage: expected dict or list")
  termination_by (sizeOf message_template, 0, 0)

/-- First pass of the dict branch of `validate_jmessage` (lines 246-270):
iterate the payload items; a key absent from the template is stripped; a key
present is validated against its template, a failure raising
InputValidationError naming the key; the success counter counts validated
keys. Returns the stripped payload (with mutated values) and the counter. -/
def vjm_pass1 (rm : String → JValue → Bool) (pkvs : List (String × JValue))
    (tkvs : List (String × Template)) : Except VError (List (String × JValue) × Nat) :=
  match pkvs with
  | [] => .ok ([], 0)
  | (k, v) :: rest =>
    match _h : lookupT k tkvs with
    | none => vjm_pass1 rm rest tkvs
    | some tv =>
      match validate_type rm v tv with
      | .error e => .error e
      | .ok (b, v1) =>
        if b then
          match vjm_pass1 rm rest tkvs with
          | .error e => .error e
          | .ok (kept, c) => .ok ((k, v1) :: kept, c + 1)
        else .error (.input ("Key (" ++ k ++ ") type validation failure"))
  termination_by (sizeOf tkvs, 2, pkvs.length)
  decreasing_by
  · apply Prod.Lex.right
    apply Prod.Lex.right
    simp
  · apply Prod.Lex.left
    exact lookupT_sizeOf _h
  · apply Prod.Lex.right
    apply Prod.Lex.right
    simp

/-- Second pass of the dict branch of `validate_jmessage` (lines 272-287):
iterate the template items over the stripped payload; a missing key raises;
the value is validated a second time; then for a non empty nested dict or
list template the payload value is recursively validated by
`validate_jmessage`, whose in place mutation is stored back; the success
counter counts template keys processed. -/
def vjm_pass2 (rm : String → JValue → Bool) (trem : List (String × Template))
    (jm : List (String × JValue)) : Except VError (List (String × JValue) × Nat) :=
  match trem with
  | [] => .ok (jm, 0)
  | (k, tv) :: rest =>
    match lookupJ k jm with
    | none => .error (.input ("Missing key " ++ k))
    | some jv =>
      match validate_type rm jv tv with
      | .error e => .error e
      | .ok (b, jv1) =>
        if b then
          match vjm_recurse rm tv jv1 with
          | .error e => .error e
          | .ok jv2 =>
            match vjm_pass2 rm rest (updateJ k jv2 (updateJ k jv1 jm)) with
            | .error e => .error e
            | .ok (jm1, c) => .ok (jm1, c + 1)
        else .error (.input ("Key (" ++ k ++ ") double validation failure"))
  termination_by (sizeOf trem, 2, 0)

/-- The conditional recursion of pass two (lines 283-285): a non empty nested
dict or list template is recursively validated by `validate_jmessage`; any
other template leaves the value unchanged. -/
def vjm_recurse (rm : String → JValue → Bool) (tv : Template) (jv1 : JValue) :
    Except VError JValue :=
  match tv with
  | .tdict (te :: tes) => validate_jmessage rm jv1 (.tdict (te :: tes))
  | .tlist (te :: tes) => validate_jmessage rm jv1 (.tlist (te :: tes))
  | _ => .ok jv1
  termination_by (sizeOf tv, 1, 0)

end

/-- Embeds `BaseHandler.validate_message` (base.py lines 304-317): the
external `json.loads` decode is abstracted by its result, `none` meaning a
ValueError was raised on malformed JSON. On success `validate_jmessage`
either raises or returns True, in which case the mutated decoded message is
returned (the final "Unexpected condition" raise is dead code). -/
def validate_message (rm : String → JValue → Bool) (decoded : Option JValue)
    (message_template : Template) : Except VError JValue :=
  match decoded with
  | none => .error (.input "Invalid JSON format")
  | some jmessage => validate_jmessage rm jmessage message_template

/-- Setwise equality of two key lists. -/
def keySetEq (l1 l2 : List String) : Bool :=
  l1.all (fun k => l2.contains k) && l2.all (fun k => l1.contains k)

mutual

/-- The key set discipline of a sanitized payload: under a dict template the
value is a dict whose key set equals the template key set, with entries
conforming recursively; under a non empty list template a list value has
every element conforming to the element template; every other combination is
unconstrained. -/
def conforms (j : JValue) (t : Template) : Bool :=
  match t with
  | .tdict tkvs =>
    match j with
    | .dict pkvs => keySetEq (pkvs.map Prod.fst) (tkvs.map Prod.fst) && conformsDict pkvs tkvs
    | _ => false
  | .tlist ts =>
    match j, ts with
    | .list xs, t0 :: _ => conformsList xs t0
    | _, _ => true
  | _ => true
  termination_by (sizeOf t, 1, 0)

/-- Every template entry has a conforming value in the payload dict. -/
def conformsDict (pkvs : List (String × JValue)) (trem : List (String × Template)) : Bool :=
  match trem with
  | [] => true
  | (k, tv) :: rest =>
    (match lookupJ k pkvs with
     | some v => conforms v tv
     | none => false) && conformsDict pkvs rest
  termination_by (sizeOf trem, 2, 0)

/-- Every list element conforms to the element template. -/
def conformsList (xs : List JValue) (t0 : Template) : Bool :=
  match xs with
  | [] => true
  | x :: rest => conforms x t0 && conformsList rest t0
  termination_by (sizeOf t0, 2, xs.length)

end

/-- No string occurs twice, as holds for python dict keys. -/
def nodupKeys : List String → Bool
  | [] => true
  | k :: ks => !(ks.contains k) && nodupKeys ks

mutual

/-- A decoded JSON value is well formed when every dict in it has pairwise
distinct keys, as `json.loads` guarantees for python dicts. -/
def wfJ : JValue → Bool
  | .null => true
  | .bool _ => true
  | .int _ => true
  | .str _ => true
  | .list xs => wfJList xs
  | .dict kvs => nodupKeys (kvs.map Prod.fst) && wfJDict kvs
  termination_by j => sizeOf j

def wfJList : List JValue → Bool
  | [] => true
  | x :: rest => wfJ x && wfJList rest
  termination_by xs => sizeOf xs

def wfJDict : List (String × JValue) → Bool
  | [] => true
  | (_, v) :: rest => wfJ v && wfJDict rest
  termination_by kvs => sizeOf kvs

end

mutual

/-- A template is well formed when every dict template in it has pairwise
distinct keys, as holds for the python dict literals of `requests.py`. -/
def wfT : Template → Bool
  | .prim _ => true
  | .regex _ => true
  | .tdict kvs => nodupKeys (kvs.map Prod.fst) && wfTDict kvs
  | .tlist ts => wfTList ts
  termination_by t => sizeOf t

def wfTList : List Template → Bool
  | [] => true
  | t :: rest => wfT t && wfTList rest
  termination_by ts => sizeOf ts

def wfTDict : List (String × Template) → Bool
  | [] => true
  | (_, t) :: rest => wfT t && wfTDict rest
  termination_by kvs => sizeOf kvs

end

/-- A concrete instantiation of the abstract regex matcher, used to
evaluate the validator on concrete inputs. -/
def rm0 : String → JValue → Bool := fun _ _ => false

/-- A session from the process wide `Sessions` registry: opaque id, owning
tenant id, and the user role consulted by the role gate. -/
structure Session where
  id : String
  tid : Nat
  user_role : String
  deriving DecidableEq

/-- The `Sessions.get` registry lookup, keyed by session id. -/
def sessions_get (registry : List Session) (session_id : String) : Option Session :=
  registry.find? (fun s => s.id == session_id)

/-- Embeds `BaseHandler.get_api_session` (base.py lines 378-395). `token` is
the value extracted from the `api-token` argument or the `x-api-token`
header, empty when neither is present; `sha512` abstracts the external
digest primitive, and the `constant_time.bytes_eq` comparison is equality of
digest strings. An empty stored digest models a falsy
`admin_api_token_digest`. -/
def get_api_session (sha512 : String → String) (api_token_len : Nat) (tid : Nat)
    (token : String) (api_token_session : Option Session)
    (admin_api_token_digest : String) : Option Session :=
  if tid ≠ 1 ∨ token.length ≠ api_token_len ∨ api_token_session = none ∨
      admin_api_token_digest = "" then none
  else if sha512 token = admin_api_token_digest then api_token_session
  else none

/-- Embeds `BaseHandler.get_current_user` (base.py lines 351-369): the API
token channel wins when it yields a session; otherwise the `x-session`
header value is looked up in the registry and the session is returned only
when it exists and its tenant id equals the tenant id of the request. -/
def get_current_user (sha512 : String → String) (api_token_len : Nat) (tid : Nat)
    (token : String) (api_token_session : Option Session)
    (admin_api_token_digest : String) (registry : List Session)
    (x_session : Option String) : Option Session :=
  match get_api_session sha512 api_token_len tid token api_token_session
      admin_api_token_digest with
  | some s => some s
  | none =>
    match x_session with
    | none => none
    | some session_id =>
      match sessions_get registry session_id with
      | some session => if session.tid = tid then some session else none
      | none => none

/-- Outcome of the `decorator_authentication` wrapper: the raised error, or
the wrapped handler body running. -/
inductive AuthResult where
  | httpAuthRequired
  | invalidAuthentication
  | notAuthenticated
  | handlerRuns
  deriving DecidableEq

/-- Embeds `BaseHandler.decorator_authentication` (base.py lines 94-121).
`basic_auth_ok` abstracts the outcome of the `basic_auth` credential
comparison (true when no error message is set); the gate runs it only when
the tenant enables basic auth and the handler does not bypass it. -/
def decorator_authentication (basic_auth_enabled bypass_basic_auth basic_auth_ok : Bool)
    (roles : List String) (current_user : Option Session) : AuthResult :=
  if basic_auth_enabled && !bypass_basic_auth && !basic_auth_ok then .httpAuthRequired
  else if "*" ∈ roles then .handlerRuns
  else if "unauthenticated" ∈ roles then
    (if current_user.isSome then .invalidAuthentication else .handlerRuns)
  else
    match current_user with
    | none => .notAuthenticated
    | some u => if u.user_role ∈ roles then .handlerRuns else .invalidAuthentication

/-- A secure temporary file of the `TempUploadFiles` registry: accumulated
byte count and whether `finalize_write` has sealed it. -/
structure FlowFile where
  bytesWritten : Nat
  finalized : Bool
  deriving DecidableEq

/-- The request fields consulted by `process_file_upload`: the
`flowFilename in args` guard, the client declared total size, the flow
identifier, the byte length of the `file` argument, and the chunk counters. -/
structure UploadRequest where
  hasFlowFilename : Bool
  flowTotalSize : Nat
  flowIdentifier : String
  chunk : Nat
  flowChunkNumber : Nat
  flowTotalChunks : Nat

/-- Observable outcome of one `process_file_upload` call. -/
inductive UploadOutcome where
  | noop
  | fileTooBig (limit : ℚ)
  | written (finalized : Bool)
  deriving DecidableEq

/-- Registry lookup `flow_identifier in TempUploadFiles`. -/
def lookupF (k : String) : List (String × FlowFile) → Option FlowFile
  | [] => none
  | (k1, f) :: rest => if k1 = k then some f else lookupF k rest

/-- Registry value replacement for an existing flow identifier. -/
def updateF (k : String) (f : FlowFile) : List (String × FlowFile) → List (String × FlowFile)
  | [] => []
  | (k1, f1) :: rest => if k1 = k then (k1, f) :: rest else (k1, f1) :: updateF k f rest

/-- Embeds `BaseHandler.process_file_upload` (base.py lines 397-418),
restricted to the state the size invariant is about: the registry of
temporary upload files keyed by flow identifier. Sizes are compared in
megabytes with exact division, the python 3 reading of the two `/` checks.
The descriptor construction and mimetype guess that follow the write do not
touch the registry and are not modelled. -/
def process_file_upload (maximum_filesize : ℚ) (st : List (String × FlowFile))
    (r : UploadRequest) : List (String × FlowFile) × UploadOutcome :=
  if !r.hasFlowFilename then (st, .noop)
  else if (r.chunk : ℚ) / (1024 * 1024) > maximum_filesize ∨
          (r.flowTotalSize : ℚ) / (1024 * 1024) > maximum_filesize then
    (st, .fileTooBig maximum_filesize)
  else
    let st1 := match lookupF r.flowIdentifier st with
      | none => st ++ [(r.flowIdentifier, ⟨0, false⟩)]
      | some _ => st
    let f := (lookupF r.flowIdentifier st1).getD ⟨0, false⟩
    let f1 : FlowFile := ⟨f.bytesWritten + r.chunk,
      f.finalized || (r.flowChunkNumber == r.flowTotalChunks)⟩
    (updateF r.flowIdentifier f1 st1, .written f1.finalized)

/-- The components of the python `timedelta` produced by subtracting two
datetimes: `seconds` and `microseconds` are normalized components of the
elapsed time, not totals, with `microseconds` below one million. -/
structure Timedelta where
  seconds : Nat
  microseconds : Nat

/-- Observable outcome of `execution_check`: whether the slow handler alert
fires, and the `deferred_sleep` duration in seconds, none when completion is
not delayed. -/
structure ExecCheckResult where
  slow_alert : Bool
  sleep : Option ℚ
  deriving DecidableEq

/-- Embeds `BaseHandler.execution_check` (base.py lines 454-468) with
python 3 true division. Both reads are of timedelta components: the slow
handler check reads `seconds` and the uniform answer delay reads
`microseconds`, not the total elapsed time. -/
def execution_check (handler_exec_time_threshold : Nat) (uniform_answer_time : Bool)
    (side_channels_guard : ℚ) (execution_time : Timedelta) : ExecCheckResult :=
  let alert := decide (execution_time.seconds > handler_exec_time_threshold)
  if uniform_answer_time then
    let needed_delay := (side_channels_guard - (execution_time.microseconds : ℚ) / 1000) / 1000
    if needed_delay > 0 then ⟨alert, some needed_delay⟩ else ⟨alert, none⟩
  else ⟨alert, none⟩

/-- The state of a `FileProducer` (base.py lines 33-71) with respect to its
request and source file: bytes remaining in the file, whether `self.request`
is still set, the number of `request.write` calls performed, and the number
of times the `finish` deferred has been resolved. -/
structure ProducerState where
  remaining : Nat
  requestOpen : Bool
  writes : Nat
  callbacks : Nat
  deriving DecidableEq

/-- Embeds `FileProducer.stopProducing`: when the request is still set it is
unregistered and finished, the reference is cleared and the completion
deferred resolved; with the reference already cleared nothing happens, and
transport errors are swallowed. -/
def stopProducing (s : ProducerState) : ProducerState :=
  if s.requestOpen then
    { s with requestOpen := false, callbacks := s.callbacks + 1 }
  else s

/-- Embeds `FileProducer.resumeProducing`: with a live request, read one
block of at most `Settings.file_chunk_size` bytes from the file; nonempty
data is written to the request, empty data stops the producer. -/
def resumeProducing (file_chunk_size : Nat) (s : ProducerState) : ProducerState :=
  if s.requestOpen then
    let data := min file_chunk_size s.remaining
    if data > 0 then
      { s with remaining := s.remaining - data, writes := s.writes + 1 }
    else stopProducing s
  else s

/-- Drive the producer through `k` transport pulls. -/
def drive (file_chunk_size : Nat) : Nat → ProducerState → ProducerState
  | 0, s => s
  | k + 1, s => drive file_chunk_size k (resumeProducing file_chunk_size s)

/-- The number of blocks of size `b` covering `n` bytes, the ceiling of
n divided by b. -/
def ceilBlocks (n b : Nat) : Nat := (n + b - 1) / b

/-- The user fields consulted by the PGP check. Time is seconds since the
epoch; `datetime_null()` is `datetime(1970, 1, 1)`, instant zero. -/
structure PGPUser where
  pgp_key_public : String
  pgp_key_expiration : Int
  pgp_key_status : String
  deriving DecidableEq

/-- A receiver row of the store, carrying its user record. -/
structure Receiver where
  user : PGPUser
  deriving DecidableEq

/-- The `datetime_null()` sentinel marking an absent expiration date. -/
def datetime_null : Int := 0

/-- The `timedelta(days=15)` offset, in seconds. -/
def fifteen_days : Int := 15 * 86400

/-- The branch taken by one loop iteration of `pgp_validation_check`
(pgp_check_sched.py lines 41-52) for a given user record. -/
inductive PGPBranch where
  | expired
  | expiring
  | skipped
  deriving DecidableEq

/-- Classifier of the if and elif conditions of the loop body of
`pgp_validation_check`: `expired` is the first append branch (expiration
before now), `expiring` the elif append branch (expiration before now minus
fifteen days while not before now), `skipped` everything else. -/
def pgp_branch (now : Int) (u : PGPUser) : PGPBranch :=
  if u.pgp_key_public ≠ "" ∧ u.pgp_key_expiration ≠ datetime_null then
    if u.pgp_key_expiration < now then .expired
    else if u.pgp_key_expiration < now - fifteen_days then .expiring
    else .skipped
  else .skipped

/-- Embeds `PGPCheckSchedule.pgp_validation_check` (pgp_check_sched.py lines
35-54): returns the updated receiver store and the `expired_or_expiring`
list. The external `admin_serialize_receiver` is modelled as the receiver
itself; serialization happens before the status downgrade, which applies
only when the node allows unencrypted mail. The `datetime_now()` calls are
modelled as the single transaction instant `now`. -/
def pgp_validation_check (now : Int) (allow_unencrypted : Bool) :
    List Receiver → List Receiver × List Receiver
  | [] => ([], [])
  | r :: rest =>
    let step := pgp_validation_check now allow_unencrypted rest
    if r.user.pgp_key_public ≠ "" ∧ r.user.pgp_key_expiration ≠ datetime_null then
      if r.user.pgp_key_expiration < now then
        let r1 := if allow_unencrypted then
            { r with user := { r.user with pgp_key_status := "disabled" } } else r
        (r1 :: step.1, r :: step.2)
      else if r.user.pgp_key_expiration < now - fifteen_days then
        (r :: step.1, r :: step.2)
      else (r :: step.1, step.2)
    else (r :: step.1, step.2)

/-- The InputValidationError message raised by the success counter double
check of `validate_jmessage`. -/
def counterFailure : VError := VError.input "Success counter double check failure"

/-- A four MiB chunk declaring a four MiB total for flow f, below a five MB
tenant limit. -/
def chunk4MB : UploadRequest := ⟨true, 4194304, "f", 4194304, 1, 3⟩

/-- Soundness package for `validate_type`: never the success counter error,
and a valid result is well formed and conforming. -/
abbrev VtProp (rm : String → JValue → Bool) (v : JValue) (t : Template) : Prop :=
  validate_type rm v t ≠ .error counterFailure ∧
  (∀ b v1, validate_type rm v t = .ok (b, v1) →
    wfJ v1 = true ∧ (b = true → conforms v1 t = true))

/-- Soundness package for `validate_list_elems`. -/
abbrev ElemsProp (rm : String → JValue → Bool) (xs : List JValue) (t0 : Template) : Prop :=
  validate_list_elems rm xs t0 ≠ .error counterFailure ∧
  (∀ b xs1, validate_list_elems rm xs t0 = .ok (b, xs1) →
    wfJList xs1 = true ∧ (b = true → conformsList xs1 t0 = true))

/-- Soundness package for `validate_jmessage`. -/
abbrev VjmProp (rm : String → JValue → Bool) (j : JValue) (t : Template) : Prop :=
  validate_jmessage rm j t ≠ .error counterFailure ∧
  (∀ j1, validate_jmessage rm j t = .ok j1 → wfJ j1 = true ∧ conforms j1 t = true)

/-- Soundness package for the first pass: the kept keys are exactly the
payload keys found in the template, in payload order, and the counter is
their number. -/
abbrev Pass1Prop (rm : String → JValue → Bool) (pkvs : List (String × JValue))
    (tkvs : List (String × Template)) : Prop :=
  vjm_pass1 rm pkvs tkvs ≠ .error counterFailure ∧
  (∀ kept c, vjm_pass1 rm pkvs tkvs = .ok (kept, c) →
    kept.map Prod.fst = (pkvs.map Prod.fst).filter (fun k2 => (lookupT k2 tkvs).isSome) ∧
    c = kept.length ∧ wfJDict kept = true)

/-- Soundness package for the second pass: keys are preserved, the counter
is the template length, every template key was found, the final values
conform, and keys outside the template slice are untouched. -/
abbrev Pass2Prop (rm : String → JValue → Bool) (trem : List (String × Template))
    (jm : List (String × JValue)) : Prop :=
  vjm_pass2 rm trem jm ≠ .error counterFailure ∧
  (∀ jm1 c, vjm_pass2 rm trem jm = .ok (jm1, c) →
    jm1.map Prod.fst = jm.map Prod.fst ∧ c = trem.length ∧ wfJDict jm1 = true ∧
    (∀ e ∈ trem, (lookupJ e.1 jm).isSome = true) ∧
    conformsDict jm1 trem = true ∧
    (∀ k2, (∀ e ∈ trem, e.1 ≠ k2) → lookupJ k2 jm1 = lookupJ k2 jm))

/-- C4 (amended): against the bool template `validate_python_type` accepts
exactly the literal strings true and false, the None wildcard, and python
boolean values through the final isinstance fallback; every other value
fails. -/
theorem bool_template_accepts (value : JValue) :
    validate_python_type value PyType.bool = true ↔
      (value = JValue.null ∨ value = JValue.str "true" ∨ value = JValue.str "false" ∨
        ∃ b, value = JValue.bool b) := by
  cases value <;>
    simp [validate_python_type, jIsNull, jIsStr, pyIsInstance, pyIntCoercible]

/-- C4 counterexample: the python boolean True is accepted by the bool
template, through `isinstance(True, bool)`, contrary to the claim that every
boolean typed value fails. -/
theorem bool_template_counterexample :
    validate_python_type (JValue.bool true) PyType.bool = true := by decide

/-- C5 (amended): a None value is rejected by `validate_type` against every
template, before the template is even inspected; the wildcard for null
policy lives only in `validate_python_type`, which accepts None for every
primitive type but is never reached by `validate_type` on a None value. -/
theorem validate_type_none (rm : String → JValue → Bool) (t : Template) (pt : PyType) :
    validate_type rm JValue.null t = .ok (false, JValue.null) ∧
    validate_python_type JValue.null pt = true := by
  constructor
  · simp [validate_type]
  · simp [validate_python_type, jIsNull]

/-- C5 counterexample: `validate_type` rejects a None value against the int
template, returning False (which makes `validate_jmessage` raise), contrary
to the claim that None passes every template. -/
theorem validate_type_none_counterexample :
    validate_type rm0 JValue.null (Template.prim PyType.int) = .ok (false, JValue.null) := by
  simp [validate_type]

/-- With distinct registered ids, looking a stored session up by its own id
finds exactly that session. -/
theorem sessions_get_of_mem {registry : List Session} {s : Session}
    (hnodup : (registry.map Session.id).Nodup) (hmem : s ∈ registry) :
    sessions_get registry s.id = some s := by
  induction registry with
  | nil => cases hmem
  | cons t rest ih =>
    rcases List.mem_cons.mp hmem with h | h
    · subst h
      simp [sessions_get, List.find?]
    · have hne : t.id ≠ s.id := by
        intro he
        have : s.id ∈ rest.map Session.id := List.mem_map_of_mem _ h
        rw [← he] at this
        exact (List.nodup_cons.mp hnodup).1 this
      have hb : (t.id == s.id) = false := by simp [hne]
      simp [sessions_get, List.find?, hb]
      exact ih (List.nodup_cons.mp hnodup).2 h

/-- C2: for a request on tenant `tid`, a session stored in the registry for
a different tenant yields no identity through the session header channel,
and with the API token channel also yielding nothing `get_current_user`
returns no identity. -/
theorem cross_tenant_session_rejected (sha512 : String → String) (api_token_len : Nat)
    (tid : Nat) (token : String) (api_token_session : Option Session) (digest : String)
    (registry : List Session) (s : Session)
    (hnodup : (registry.map Session.id).Nodup) (hmem : s ∈ registry) (htid : s.tid ≠ tid)
    (hapi : get_api_session sha512 api_token_len tid token api_token_session digest = none) :
    get_current_user sha512 api_token_len tid token api_token_session digest registry
      (some s.id) = none := by
  simp [get_current_user, hapi, sessions_get_of_mem hnodup hmem, htid]

/-- C2 witness: a concrete tenant 1 session presented on a tenant 2 request
resolves to no identity. -/
theorem cross_tenant_session_rejected_witness :
    get_current_user (fun d => d) 32 2 "" none "" [⟨"sid", 1, "admin"⟩] (some "sid") = none :=
  cross_tenant_session_rejected (fun d => d) 32 2 "" none ""
    [⟨"sid", 1, "admin"⟩] ⟨"sid", 1, "admin"⟩ (by simp) (by simp) (by decide) (by decide)

/-- C6: with the basic auth gate passing, the role allow list `admin` makes
an authenticated non admin caller fail with InvalidAuthentication and an
unauthenticated caller fail with NotAuthenticated, while any allow list
containing the wildcard runs the handler body regardless of the resolved
identity. -/
theorem role_gate (ba bp ok : Bool) (cu : Option Session) (s : Session)
    (hbasic : (ba && !bp && !ok) = false) :
    (s.user_role ≠ "admin" →
      decorator_authentication ba bp ok ["admin"] (some s) = .invalidAuthentication) ∧
    (decorator_authentication ba bp ok ["admin"] none = .notAuthenticated) ∧
    (∀ roles : List String, "*" ∈ roles →
      decorator_authentication ba bp ok roles cu = .handlerRuns) := by
  refine ⟨?_, ?_, ?_⟩
  · intro hrole
    simp [decorator_authentication, hbasic, hrole]
  · simp [decorator_authentication, hbasic]
  · intro roles hstar
    simp [decorator_authentication, hbasic, hstar]

/-- C6 witness: a receiver session against the admin gate, an anonymous
caller against the admin gate, and an anonymous caller against a wildcard
gate. -/
theorem role_gate_witness :
    decorator_authentication false false false ["admin"] (some ⟨"sid", 1, "receiver"⟩)
        = .invalidAuthentication ∧
    decorator_authentication false false false ["admin"] none = .notAuthenticated ∧
    decorator_authentication false false false ["*"] none = .handlerRuns := by
  have h := role_gate false false false none ⟨"sid", 1, "receiver"⟩ (by decide)
  exact ⟨h.1 (by decide), h.2.1, h.2.2 ["*"] (by decide)⟩

/-- C7 (amended): on a handler flagged for uniform answer time the added
delay is computed from the microseconds component of the execution time
only: when (guard minus that component in milliseconds) divided by one
thousand is positive, completion is suspended for exactly that duration,
otherwise no delay is added; for a request that completed in under one
second this equals the guard minus the total elapsed time. -/
theorem uniform_answer_delay (thr : Nat) (guard : ℚ) (et : Timedelta) :
    ((guard - (et.microseconds : ℚ) / 1000) / 1000 > 0 →
      (execution_check thr true guard et).sleep =
        some ((guard - (et.microseconds : ℚ) / 1000) / 1000)) ∧
    ((guard - (et.microseconds : ℚ) / 1000) / 1000 ≤ 0 →
      (execution_check thr true guard et).sleep = none) ∧
    (et.seconds = 0 → (et.microseconds : ℚ) / 1000 < guard →
      (execution_check thr true guard et).sleep =
        some ((guard - (et.microseconds : ℚ) / 1000) / 1000)) := by
  refine ⟨?_, ?_, ?_⟩
  · intro h
    simp [execution_check, h]
  · intro h
    simp [execution_check, not_lt.mpr h]
  · intro _ h
    have hpos : (guard - (et.microseconds : ℚ) / 1000) / 1000 > 0 := by
      apply div_pos _ (by norm_num)
      linarith
    simp [execution_check, hpos]

/-- C7 counterexample: a request that took exactly two seconds has total
elapsed time of 2000 milliseconds, far above the 150 millisecond guard, yet
completion is still suspended for 0.15 seconds because only the microseconds
component (here zero) enters the computation; the claim says no delay is
added at or above the guard. -/
theorem uniform_answer_delay_counterexample :
    ((2 : ℚ) * 1000000 + 0) / 1000 ≥ 150 ∧
    (execution_check 120 true 150 ⟨2, 0⟩).sleep = some (3 / 20) := by
  constructor
  · norm_num
  · norm_num [execution_check]

/-- C7 witness: a 100 millisecond request against the 150 millisecond guard
sleeps for the remaining delta, and a 200 millisecond request sleeps not at
all. -/
theorem uniform_answer_delay_witness :
    (execution_check 120 true 150 ⟨0, 100000⟩).sleep =
      some ((150 - (100000 : ℚ) / 1000) / 1000) ∧
    (execution_check 120 true 150 ⟨0, 200000⟩).sleep = none :=
  ⟨(uniform_answer_delay 120 150 ⟨0, 100000⟩).1 (by norm_num),
   (uniform_answer_delay 120 150 ⟨0, 200000⟩).2.1 (by norm_num)⟩



/-- C3 counterexample: with a 5 MB tenant limit, two 4 MiB chunks of the
same flow each pass both size checks, and after the second write the
accumulated byte count of the flow is 8 MiB, above the limit: the
accumulated stored size is not bounded by the configured maximum. -/
theorem upload_accumulation_counterexample :
    lookupF "f" (process_file_upload 5 (process_file_upload 5 [] chunk4MB).1 chunk4MB).1
      = some ⟨8388608, false⟩ ∧ (8388608 : ℚ) / (1024 * 1024) > 5 := by
  constructor
  · norm_num [process_file_upload, chunk4MB, lookupF, updateF]
  · norm_num

/-- C3 (amended): a FileTooBig rejection leaves the upload registry
untouched, so no byte of the offending chunk is written, and a chunk is
written only when both the instantaneous chunk size and the client declared
total size are within the tenant limit; the accumulated byte count itself is
never checked and can exceed the limit. -/
theorem upload_size_checks (m : ℚ) (st : List (String × FlowFile)) (r : UploadRequest) :
    ((process_file_upload m st r).2 = .fileTooBig m → (process_file_upload m st r).1 = st) ∧
    (∀ fz, (process_file_upload m st r).2 = .written fz →
      (r.chunk : ℚ) / (1024 * 1024) ≤ m ∧ (r.flowTotalSize : ℚ) / (1024 * 1024) ≤ m) := by
  unfold process_file_upload
  split_ifs with h0 h1
  · simp
  · simp
  · push_neg at h1
    refine ⟨by simp, fun fz _ => h1⟩

/-- C3 witness: a 6 MiB chunk against a 5 MB limit is rejected with the
registry unchanged, and the accepted 4 MiB chunk satisfies both size
checks. -/
theorem upload_size_checks_witness :
    (process_file_upload 5 [] ⟨true, 6291456, "g", 6291456, 1, 1⟩).1 = [] ∧
    (4194304 : ℚ) / (1024 * 1024) ≤ 5 ∧ (4194304 : ℚ) / (1024 * 1024) ≤ 5 :=
  ⟨(upload_size_checks 5 [] ⟨true, 6291456, "g", 6291456, 1, 1⟩).1
     (by norm_num [process_file_upload]),
   (upload_size_checks 5 [] chunk4MB).2 false
     (by norm_num [process_file_upload, chunk4MB, lookupF, updateF, Option.getD])⟩

/-- C10: a receiver with a public key and a non null expiration lands in the
expired or expiring list exactly when its key expiration is strictly before
now, and the elif branch of the scan (expiration before now minus fifteen
days while not before now) is unreachable, so the list never contains a
receiver whose key has not yet expired. -/
theorem pgp_check_expired_only (now : Int) (au : Bool) (rcvrs : List Receiver) :
    (pgp_validation_check now au rcvrs).2 =
      rcvrs.filter (fun r => decide (r.user.pgp_key_public ≠ "" ∧
        r.user.pgp_key_expiration ≠ datetime_null ∧ r.user.pgp_key_expiration < now)) ∧
    (∀ u : PGPUser, pgp_branch now u ≠ PGPBranch.expiring) := by
  constructor
  · induction rcvrs with
    | nil => simp [pgp_validation_check]
    | cons r rest ih =>
      by_cases h1 : r.user.pgp_key_public = ""
      · simp [pgp_validation_check, h1, ih]
      · by_cases h2 : r.user.pgp_key_expiration = datetime_null
        · simp [pgp_validation_check, h1, h2, ih]
        · by_cases h3 : r.user.pgp_key_expiration < now
          · simp [pgp_validation_check, h1, h2, h3, ih]
          · have h4 : ¬ r.user.pgp_key_expiration < now - fifteen_days := by
              unfold fifteen_days
              omega
            simp [pgp_validation_check, h1, h2, h3, h4, ih]
  · intro u
    unfold pgp_branch
    split_ifs with h1 h2 h3
    · simp
    · exfalso
      unfold fifteen_days at h3
      omega
    · simp
    · simp

/-- Pulling a producer whose request reference is cleared does nothing. -/
theorem drive_closed (b : Nat) : ∀ (k : Nat) (s : ProducerState),
    s.requestOpen = false → drive b k s = s := by
  intro k
  induction k with
  | zero => intro s _; rfl
  | succ k ih =>
    intro s h
    rw [drive, show resumeProducing b s = s from by simp [resumeProducing, h]]
    exact ih s h

theorem ceilBlocks_pos_eq (n b : Nat) (hn : 0 < n) (hb : 0 < b) :
    ceilBlocks n b = (n - 1) / b + 1 := by
  unfold ceilBlocks
  rw [show n + b - 1 = (n - 1) + b from by omega, Nat.add_div_right _ hb]

theorem ceilBlocks_sub (n b : Nat) (hn : 0 < n) (hb : 0 < b) :
    ceilBlocks (n - b) b = (n - 1) / b := by
  by_cases h : n ≤ b
  · rw [show n - b = 0 from by omega]
    unfold ceilBlocks
    rw [show 0 + b - 1 = b - 1 from by omega, Nat.div_eq_of_lt (by omega),
        Nat.div_eq_of_lt (by omega)]
  · push_neg at h
    unfold ceilBlocks
    rw [show n - b + b - 1 = (n - 1 - b) + b from by omega, Nat.add_div_right _ hb]
    conv_rhs => rw [show n - 1 = (n - 1 - b) + b from by omega]
    rw [Nat.add_div_right _ hb]

/-- Driving an open producer with `n` bytes left through ceiling of n over b
pulls plus one (plus any further pulls) writes exactly that many blocks,
stops, and resolves the completion deferred once. -/
theorem drive_run (b : Nat) (hb : 0 < b) :
    ∀ n w c k, drive b (ceilBlocks n b + 1 + k) ⟨n, true, w, c⟩ =
      ⟨0, false, w + ceilBlocks n b, c + 1⟩ := by
  intro n
  induction n using Nat.strong_induction_on with
  | _ n ih =>
    intro w c k
    by_cases hn : n = 0
    · subst hn
      have h0 : ceilBlocks 0 b = 0 := by
        unfold ceilBlocks
        exact Nat.div_eq_of_lt (by omega)
      rw [h0, show 0 + 1 + k = k + 1 from by omega, drive,
          show resumeProducing b ⟨0, true, w, c⟩ = ⟨0, false, w, c + 1⟩ from by
            simp [resumeProducing, stopProducing],
          drive_closed b k _ rfl]
      simp
    · have hpos : 0 < n := Nat.pos_of_ne_zero hn
      have hstep : resumeProducing b ⟨n, true, w, c⟩ = ⟨n - b, true, w + 1, c⟩ := by
        unfold resumeProducing
        simp only [if_pos]
        rw [if_pos (by simp; omega)]
        simp
        omega
      have hrec : ceilBlocks n b = ceilBlocks (n - b) b + 1 := by
        rw [ceilBlocks_pos_eq n b hpos hb, ceilBlocks_sub n b hpos hb]
      rw [hrec, show ceilBlocks (n - b) b + 1 + 1 + k = (ceilBlocks (n - b) b + 1 + k) + 1
            from by omega, drive, hstep, ih (n - b) (by omega) (w + 1) c k]
      simp [ProducerState.mk.injEq]
      omega

/-- C9: streaming a file of n bytes (n positive) with read block size b
through the producer performs exactly ceiling of n over b write calls before
the empty read stops it, the completion deferred is resolved exactly once,
and any number of further pulls changes nothing. -/
theorem file_producer_writes (n b : Nat) (_hn : 0 < n) (hb : 0 < b) (k : Nat) :
    drive b (ceilBlocks n b + 1 + k) ⟨n, true, 0, 0⟩ = ⟨0, false, ceilBlocks n b, 1⟩ := by
  have h := drive_run b hb n 0 0 k
  simpa using h

/-- C9 witness: three bytes in blocks of two bytes, two writes and one
completion. -/
theorem file_producer_writes_witness :
    drive 2 (ceilBlocks 3 2 + 1 + 0) ⟨3, true, 0, 0⟩ = ⟨0, false, ceilBlocks 3 2, 1⟩ :=
  file_producer_writes 3 2 (by decide) (by decide) 0

end GlobaLeaks

namespace GlobaLeaks



theorem lookupT_isSome_mem {k : String} : ∀ {tkvs : List (String × Template)},
    (lookupT k tkvs).isSome = true ↔ k ∈ tkvs.map Prod.fst := by
  intro tkvs
  induction tkvs with
  | nil => simp [lookupT]
  | cons e rest ih =>
    obtain ⟨k1, t1⟩ := e
    by_cases h : k1 = k
    · simp [lookupT, h]
    · simp [lookupT, h, ih, Ne.symm h]

theorem lookupJ_isSome_mem {k : String} : ∀ {jm : List (String × JValue)},
    (lookupJ k jm).isSome = true ↔ k ∈ jm.map Prod.fst := by
  intro jm
  induction jm with
  | nil => simp [lookupJ]
  | cons e rest ih =>
    obtain ⟨k1, v1⟩ := e
    by_cases h : k1 = k
    · simp [lookupJ, h]
    · simp [lookupJ, h, ih, Ne.symm h]

theorem wfTDict_lookupT : ∀ {tkvs : List (String × Template)} {k : String} {tv : Template},
    wfTDict tkvs = true → lookupT k tkvs = some tv → wfT tv = true := by
  intro tkvs
  induction tkvs with
  | nil => intro k tv _ h; simp [lookupT] at h
  | cons e rest ih =>
    obtain ⟨k1, t1⟩ := e
    intro k tv hwf h
    rw [wfTDict] at hwf
    rw [Bool.and_eq_true] at hwf
    rw [lookupT] at h
    by_cases he : k1 = k
    · simp [he] at h
      exact h ▸ hwf.1
    · simp [he] at h
      exact ih hwf.2 h

theorem wfJDict_lookupJ : ∀ {jm : List (String × JValue)} {k : String} {v : JValue},
    wfJDict jm = true → lookupJ k jm = some v → wfJ v = true := by
  intro jm
  induction jm with
  | nil => intro k v _ h; simp [lookupJ] at h
  | cons e rest ih =>
    obtain ⟨k1, v1⟩ := e
    intro k v hwf h
    rw [wfJDict] at hwf
    rw [Bool.and_eq_true] at hwf
    rw [lookupJ] at h
    by_cases he : k1 = k
    · simp [he] at h
      exact h ▸ hwf.1
    · simp [he] at h
      exact ih hwf.2 h

theorem updateJ_map_fst (k : String) (v : JValue) : ∀ (jm : List (String × JValue)),
    (updateJ k v jm).map Prod.fst = jm.map Prod.fst := by
  intro jm
  induction jm with
  | nil => rfl
  | cons e rest ih =>
    obtain ⟨k1, v1⟩ := e
    by_cases h : k1 = k
    · simp [updateJ, h]
    · simp [updateJ, h, ih]

theorem lookupJ_updateJ_self {k : String} {v : JValue} : ∀ {jm : List (String × JValue)},
    (lookupJ k jm).isSome = true → lookupJ k (updateJ k v jm) = some v := by
  intro jm
  induction jm with
  | nil => intro h; simp [lookupJ] at h
  | cons e rest ih =>
    obtain ⟨k1, v1⟩ := e
    intro h
    by_cases he : k1 = k
    · simp [updateJ, he, lookupJ]
    · rw [lookupJ] at h
      simp [he] at h
      simp [updateJ, he, lookupJ, ih h]

theorem lookupJ_updateJ_ne {k k2 : String} {v : JValue} (h : k ≠ k2) :
    ∀ (jm : List (String × JValue)), lookupJ k2 (updateJ k v jm) = lookupJ k2 jm := by
  intro jm
  induction jm with
  | nil => rfl
  | cons e rest ih =>
    obtain ⟨k1, v1⟩ := e
    by_cases he : k1 = k
    · subst he
      simp [updateJ, lookupJ, h, ih]
    · simp [updateJ, he, lookupJ, ih]

theorem wfJDict_updateJ {k : String} {v : JValue} (hv : wfJ v = true) :
    ∀ {jm : List (String × JValue)}, wfJDict jm = true → wfJDict (updateJ k v jm) = true := by
  intro jm
  induction jm with
  | nil => intro h; exact h
  | cons e rest ih =>
    obtain ⟨k1, v1⟩ := e
    intro h
    rw [wfJDict, Bool.and_eq_true] at h
    by_cases he : k1 = k
    · rw [updateJ]
      simp only [he, if_pos]
      rw [wfJDict, Bool.and_eq_true]
      exact ⟨hv, h.2⟩
    · rw [updateJ]
      simp only [he, if_neg, ite_false]
      rw [wfJDict, Bool.and_eq_true]
      exact ⟨h.1, ih h.2⟩

theorem nodupKeys_filter (p : String → Bool) : ∀ {l : List String},
    nodupKeys l = true → nodupKeys (l.filter p) = true := by
  intro l
  induction l with
  | nil => intro h; exact h
  | cons k ks ih =>
    intro h
    rw [nodupKeys, Bool.and_eq_true] at h
    by_cases hp : p k
    · rw [List.filter_cons_of_pos hp, nodupKeys, Bool.and_eq_true]
      have hk : k ∉ ks := by simpa using h.1
      refine ⟨?_, ih h.2⟩
      simp only [Bool.not_eq_true']
      by_contra hc
      have hkm : k ∈ List.filter p ks := by
        simp only [Bool.not_eq_false] at hc
        simpa using hc
      exact hk (List.mem_of_mem_filter hkm)
    · rw [List.filter_cons_of_neg hp]
      exact ih h.2

theorem nodupKeys_iff : ∀ {l : List String}, nodupKeys l = true ↔ l.Nodup := by
  intro l
  induction l with
  | nil => simp [nodupKeys]
  | cons k ks ih =>
    rw [nodupKeys, Bool.and_eq_true, List.nodup_cons, ih]
    constructor
    · rintro ⟨h1, h2⟩
      refine ⟨?_, h2⟩
      simpa using h1
    · rintro ⟨h1, h2⟩
      refine ⟨?_, h2⟩
      simpa using h1

theorem nodup_len_eq {l1 l2 : List String} (h1 : l1.Nodup) (h2 : l2.Nodup)
    (s1 : ∀ x ∈ l1, x ∈ l2) (s2 : ∀ x ∈ l2, x ∈ l1) : l1.length = l2.length := by
  have e1 : l1.toFinset.card = l1.length := List.toFinset_card_of_nodup h1
  have e2 : l2.toFinset.card = l2.length := List.toFinset_card_of_nodup h2
  have hs : l1.toFinset = l2.toFinset := by
    apply Finset.Subset.antisymm
    · intro x hx
      exact List.mem_toFinset.mpr (s1 x (List.mem_toFinset.mp hx))
    · intro x hx
      exact List.mem_toFinset.mpr (s2 x (List.mem_toFinset.mp hx))
  rw [← e1, ← e2, hs]

theorem keySetEq_of_subsets {l1 l2 : List String}
    (s1 : ∀ x ∈ l1, x ∈ l2) (s2 : ∀ x ∈ l2, x ∈ l1) : keySetEq l1 l2 = true := by
  rw [keySetEq, Bool.and_eq_true, List.all_eq_true, List.all_eq_true]
  constructor
  · intro x hx
    simpa using s1 x hx
  · intro x hx
    simpa using s2 x hx

theorem wfJList_map_str {α : Type} (f : α → String) : ∀ (l : List α),
    wfJList (l.map fun a => JValue.str (f a)) = true := by
  intro l
  induction l with
  | nil => simp [wfJList]
  | cons a rest ih =>
    simp only [List.map_cons]
    rw [wfJList, Bool.and_eq_true]
    exact ⟨by rw [wfJ], ih⟩

theorem input_ne_counter {m : String} (h : m.data.head? ≠ some 'S') :
    VError.input m ≠ counterFailure := by
  intro he
  rw [counterFailure] at he
  injection he with hm
  rw [hm] at h
  exact h (by decide)

theorem head_key_paren (k s : String) : (("Key (" ++ k) ++ s).data.head? = some 'K' := by
  rw [String.data_append, String.data_append]
  rfl

theorem head_missing (k : String) : ("Missing key " ++ k).data.head? = some 'M' := by
  rw [String.data_append]
  rfl

end GlobaLeaks

namespace GlobaLeaks

theorem conforms_prim (j : JValue) (pt : PyType) : conforms j (.prim pt) = true := by
  cases j <;> simp [conforms]

theorem conforms_regex (j : JValue) (pat : String) : conforms j (.regex pat) = true := by
  cases j <;> simp [conforms]

theorem conforms_tlist_nil (j : JValue) : conforms j (.tlist []) = true := by
  cases j <;> simp [conforms]

theorem conforms_dict_eq (pkvs : List (String × JValue)) (tkvs : List (String × Template)) :
    conforms (.dict pkvs) (.tdict tkvs) =
      (keySetEq (pkvs.map Prod.fst) (tkvs.map Prod.fst) && conformsDict pkvs tkvs) := by
  simp [conforms]

theorem conforms_list_eq (xs : List JValue) (t0 : Template) (tr : List Template) :
    conforms (.list xs) (.tlist (t0 :: tr)) = conformsList xs t0 := by
  simp [conforms]

end GlobaLeaks

namespace GlobaLeaks

theorem vjm_pass1_cons_none (rm : String → JValue → Bool) (k : String) (v : JValue)
    (rest : List (String × JValue)) (tkvs : List (String × Template))
    (hl : lookupT k tkvs = none) :
    vjm_pass1 rm ((k, v) :: rest) tkvs = vjm_pass1 rm rest tkvs := by
  rw [vjm_pass1.eq_def]
  split
  · rename_i heq
    exact absurd heq (by simp)
  · rename_i k1 v1 rest1 heq
    injection heq with heq1 heq2
    injection heq1 with heqk heqv
    subst heqk
    subst heqv
    subst heq2
    split
    · rfl
    · rename_i tv2 heq3
      rw [hl] at heq3
      exact Option.noConfusion heq3

theorem vjm_pass1_cons_some (rm : String → JValue → Bool) (k : String) (v : JValue)
    (rest : List (String × JValue)) (tkvs : List (String × Template)) (tv : Template)
    (hl : lookupT k tkvs = some tv) :
    vjm_pass1 rm ((k, v) :: rest) tkvs =
      (match validate_type rm v tv with
      | .error e => .error e
      | .ok (b, v1) =>
        if b then
          match vjm_pass1 rm rest tkvs with
          | .error e => .error e
          | .ok (kept, c) => .ok ((k, v1) :: kept, c + 1)
        else .error (.input ("Key (" ++ k ++ ") type validation failure"))) := by
  rw [vjm_pass1.eq_def]
  split
  · rename_i heq
    exact absurd heq (by simp)
  · rename_i k1 v1 rest1 heq
    injection heq with heq1 heq2
    injection heq1 with heqk heqv
    subst heqk
    subst heqv
    subst heq2
    split
    · rename_i heq3
      rw [hl] at heq3
      exact Option.noConfusion heq3
    · rename_i tv2 heq3
      rw [hl] at heq3
      injection heq3 with heq4
      subst heq4
      rfl

theorem pytype_ne_counter (m : String) : VError.pytype m ≠ counterFailure := by
  intro h
  rw [counterFailure] at h
  exact VError.noConfusion h

theorem error_ne_of_verror {α : Type} {e1 e2 : VError} (h : e1 ≠ e2) :
    (Except.error e1 : Except VError α) ≠ Except.error e2 := by
  intro hc
  injection hc with h3
  exact h h3

theorem ok_ne_error {ε α : Type} (a : α) (e : ε) :
    (Except.ok a : Except ε α) ≠ Except.error e := by
  intro hc
  exact Except.noConfusion hc

theorem error_eq_ok_elim {ε α : Type} {e : ε} {a : α} {C : Prop}
    (h : (Except.error e : Except ε α) = Except.ok a) : C :=
  Except.noConfusion h

end GlobaLeaks

namespace GlobaLeaks


theorem sizeOf_snd_head_lt {α : Type} [SizeOf α] (k : String) (a : α)
    (rest : List (String × α)) : sizeOf a < sizeOf ((k, a) :: rest) := by
  simp
  omega

theorem sizeOf_tail_lt {α : Type} [SizeOf α] (e : α) (rest : List α) :
    sizeOf rest < sizeOf (e :: rest) := by
  simp

theorem sizeOf_tdict_gt (tkvs : List (String × Template)) :
    sizeOf tkvs < sizeOf (Template.tdict tkvs) := by
  simp

theorem sizeOf_tlist_head (t0 : Template) (tr : List Template) :
    sizeOf t0 < sizeOf (Template.tlist (t0 :: tr)) := by
  simp
  omega

end GlobaLeaks


namespace GlobaLeaks

/-- Soundness of the structural validator, by strong induction on the size
of the template: on well formed inputs no branch ever produces the success
counter double check error, and every successful validation returns a well
formed payload whose key sets match the template, recursively. -/
theorem master_all (rm : String → JValue → Bool) : ∀ n : Nat,
    (∀ t, sizeOf t ≤ n → wfT t = true → ∀ j, wfJ j = true → VjmProp rm j t) ∧
    (∀ t, sizeOf t ≤ n → wfT t = true → ∀ v, wfJ v = true → VtProp rm v t) ∧
    (∀ t0, sizeOf t0 ≤ n → wfT t0 = true → ∀ xs, wfJList xs = true → ElemsProp rm xs t0) ∧
    (∀ tkvs, sizeOf tkvs ≤ n → wfTDict tkvs = true →
      ∀ pkvs, wfJDict pkvs = true → Pass1Prop rm pkvs tkvs) ∧
    (∀ trem, sizeOf trem ≤ n → wfTDict trem = true → nodupKeys (trem.map Prod.fst) = true →
      ∀ jm, wfJDict jm = true → Pass2Prop rm trem jm) := by
  intro n
  induction n using Nat.strong_induction_on with
  | _ n IH =>
  have hpass1 : ∀ tkvs, sizeOf tkvs ≤ n → wfTDict tkvs = true →
      ∀ pkvs, wfJDict pkvs = true → Pass1Prop rm pkvs tkvs := by
    intro tkvs hbnd ht pkvs
    induction pkvs with
    | nil =>
      intro _
      have he : vjm_pass1 rm [] tkvs = .ok ([], 0) := by simp [vjm_pass1]
      refine ⟨?_, ?_⟩
      · rw [he]
        exact ok_ne_error _ _
      · intro kept c h
        rw [he] at h
        injection h with h2
        injection h2 with hk hc
        subst hk
        subst hc
        exact ⟨by simp, rfl, by rw [wfJDict]⟩
    | cons e rest ihp =>
      intro hp
      obtain ⟨k, v⟩ := e
      rw [wfJDict, Bool.and_eq_true] at hp
      have hihp := ihp hp.2
      cases hl : lookupT k tkvs with
      | none =>
        have he := vjm_pass1_cons_none rm k v rest tkvs hl
        refine ⟨?_, ?_⟩
        · rw [he]
          exact hihp.1
        · intro kept c h
          rw [he] at h
          have h2 := hihp.2 kept c h
          refine ⟨?_, h2.2.1, h2.2.2⟩
          rw [List.map_cons, List.filter_cons_of_neg (by simp [hl])]
          exact h2.1
      | some tv =>
        have hvt := (IH (sizeOf tv) (lt_of_lt_of_le (lookupT_sizeOf hl) hbnd)).2.1 tv le_rfl
          (wfTDict_lookupT ht hl) v hp.1
        have hcons := vjm_pass1_cons_some rm k v rest tkvs tv hl
        cases hx : validate_type rm v tv with
        | error e2 =>
          have he : vjm_pass1 rm ((k, v) :: rest) tkvs = .error e2 := by
            rw [hcons]
            simp [hx]
          refine ⟨?_, ?_⟩
          · rw [he]
            intro hc
            injection hc with h2
            exact hvt.1 (by rw [hx, h2])
          · intro kept c h
            rw [he] at h
            exact error_eq_ok_elim h
        | ok p =>
          obtain ⟨b0, v1⟩ := p
          cases b0 with
          | false =>
            have he : vjm_pass1 rm ((k, v) :: rest) tkvs =
                .error (.input ("Key (" ++ k ++ ") type validation failure")) := by
              rw [hcons]
              simp [hx]
            refine ⟨?_, ?_⟩
            · rw [he]
              intro hc
              injection hc with h2
              exact input_ne_counter (by rw [head_key_paren]; decide) h2
            · intro kept c h
              rw [he] at h
              exact error_eq_ok_elim h
          | true =>
            have hx1 := hvt.2 true v1 hx
            cases hr : vjm_pass1 rm rest tkvs with
            | error e2 =>
              have he : vjm_pass1 rm ((k, v) :: rest) tkvs = .error e2 := by
                rw [hcons]
                simp [hx, hr]
              refine ⟨?_, ?_⟩
              · rw [he]
                intro hc
                injection hc with h2
                exact hihp.1 (by rw [hr, h2])
              · intro kept c h
                rw [he] at h
                exact error_eq_ok_elim h
            | ok q =>
              obtain ⟨kept0, c0⟩ := q
              have hq := hihp.2 kept0 c0 hr
              have he : vjm_pass1 rm ((k, v) :: rest) tkvs =
                  .ok ((k, v1) :: kept0, c0 + 1) := by
                rw [hcons]
                simp [hx, hr]
              refine ⟨?_, ?_⟩
              · rw [he]
                exact ok_ne_error _ _
              · intro kept c h
                rw [he] at h
                injection h with h2
                injection h2 with hk hc
                subst hk
                subst hc
                refine ⟨?_, ?_, ?_⟩
                · rw [List.map_cons, List.map_cons,
                    List.filter_cons_of_pos (by simp [hl]), hq.1]
                · rw [List.length_cons, hq.2.1]
                · rw [wfJDict, Bool.and_eq_true]
                  exact ⟨hx1.1, hq.2.2⟩
  have hpass2 : ∀ trem, sizeOf trem ≤ n → wfTDict trem = true →
      nodupKeys (trem.map Prod.fst) = true →
      ∀ jm, wfJDict jm = true → Pass2Prop rm trem jm := by
    intro trem hbnd ht htk jm hj
    cases trem with
    | nil =>
      have he : vjm_pass2 rm [] jm = .ok (jm, 0) := by simp [vjm_pass2]
      refine ⟨?_, ?_⟩
      · rw [he]
        exact ok_ne_error _ _
      · intro jm1 c h
        rw [he] at h
        injection h with h2
        injection h2 with hj1 hc
        subst hj1
        subst hc
        exact ⟨rfl, rfl, hj, by simp, by rw [conformsDict], fun k2 _ => rfl⟩
    | cons e rest =>
      obtain ⟨k, tv⟩ := e
      rw [wfTDict, Bool.and_eq_true] at ht
      rw [List.map_cons, nodupKeys, Bool.and_eq_true] at htk
      have hknmem : k ∉ rest.map Prod.fst := by simpa using htk.1
      cases hlj : lookupJ k jm with
      | none =>
        have he : vjm_pass2 rm ((k, tv) :: rest) jm =
            .error (.input ("Missing key " ++ k)) := by
          simp [vjm_pass2, hlj]
        refine ⟨?_, ?_⟩
        · rw [he]
          intro hc
          injection hc with h2
          exact input_ne_counter (by rw [head_missing]; decide) h2
        · intro jm1 c h
          rw [he] at h
          exact error_eq_ok_elim h
      | some jv =>
        have hjv : wfJ jv = true := wfJDict_lookupJ hj hlj
        have htvn : sizeOf tv < n := lt_of_lt_of_le (sizeOf_snd_head_lt k tv rest) hbnd
        have hvt := (IH (sizeOf tv) htvn).2.1 tv le_rfl ht.1 jv hjv
        cases hx : validate_type rm jv tv with
        | error e2 =>
          have he : vjm_pass2 rm ((k, tv) :: rest) jm = .error e2 := by
            simp [vjm_pass2, hlj, hx]
          refine ⟨?_, ?_⟩
          · rw [he]
            intro hc
            injection hc with h2
            exact hvt.1 (by rw [hx, h2])
          · intro jm1 c h
            rw [he] at h
            exact error_eq_ok_elim h
        | ok p =>
          obtain ⟨b0, jv1⟩ := p
          cases b0 with
          | false =>
            have he : vjm_pass2 rm ((k, tv) :: rest) jm =
                .error (.input ("Key (" ++ k ++ ") double validation failure")) := by
              simp [vjm_pass2, hlj, hx]
            refine ⟨?_, ?_⟩
            · rw [he]
              intro hc
              injection hc with h2
              exact input_ne_counter (by rw [head_key_paren]; decide) h2
            · intro jm1 c h
              rw [he] at h
              exact error_eq_ok_elim h
          | true =>
            have hx1 := hvt.2 true jv1 hx
            have hrecr : vjm_recurse rm tv jv1 ≠ .error counterFailure ∧
                (∀ jv2, vjm_recurse rm tv jv1 = .ok jv2 →
                  wfJ jv2 = true ∧ conforms jv2 tv = true) := by
              cases tv with
              | prim pt =>
                have he2 : vjm_recurse rm (.prim pt) jv1 = .ok jv1 := by
                  simp [vjm_recurse]
                rw [he2]
                refine ⟨ok_ne_error _ _, ?_⟩
                intro jv2 h
                injection h with hh
                subst hh
                exact ⟨hx1.1, conforms_prim _ _⟩
              | regex pat =>
                have he2 : vjm_recurse rm (.regex pat) jv1 = .ok jv1 := by
                  simp [vjm_recurse]
                rw [he2]
                refine ⟨ok_ne_error _ _, ?_⟩
                intro jv2 h
                injection h with hh
                subst hh
                exact ⟨hx1.1, conforms_regex _ _⟩
              | tdict tk =>
                cases tk with
                | nil =>
                  have he2 : vjm_recurse rm (.tdict []) jv1 = .ok jv1 := by
                    simp [vjm_recurse]
                  rw [he2]
                  refine ⟨ok_ne_error _ _, ?_⟩
                  intro jv2 h
                  injection h with hh
                  subst hh
                  exact ⟨hx1.1, hx1.2 rfl⟩
                | cons te tes =>
                  have hm := (IH (sizeOf (Template.tdict (te :: tes))) htvn).1
                    (Template.tdict (te :: tes)) le_rfl ht.1 jv1 hx1.1
                  have he2 : vjm_recurse rm (.tdict (te :: tes)) jv1 =
                      validate_jmessage rm jv1 (.tdict (te :: tes)) := by
                    simp [vjm_recurse]
                  rw [he2]
                  exact hm
              | tlist tl =>
                cases tl with
                | nil =>
                  have he2 : vjm_recurse rm (.tlist []) jv1 = .ok jv1 := by
                    simp [vjm_recurse]
                  rw [he2]
                  refine ⟨ok_ne_error _ _, ?_⟩
                  intro jv2 h
                  injection h with hh
                  subst hh
                  exact ⟨hx1.1, conforms_tlist_nil _⟩
                | cons te tes =>
                  have hm := (IH (sizeOf (Template.tlist (te :: tes))) htvn).1
                    (Template.tlist (te :: tes)) le_rfl ht.1 jv1 hx1.1
                  have he2 : vjm_recurse rm (.tlist (te :: tes)) jv1 =
                      validate_jmessage rm jv1 (.tlist (te :: tes)) := by
                    simp [vjm_recurse]
                  rw [he2]
                  exact hm
            cases hrec2 : vjm_recurse rm tv jv1 with
            | error e2 =>
              have he : vjm_pass2 rm ((k, tv) :: rest) jm = .error e2 := by
                simp [vjm_pass2, hlj, hx, hrec2]
              refine ⟨?_, ?_⟩
              · rw [he]
                intro hc
                injection hc with h2
                exact hrecr.1 (by rw [hrec2, h2])
              · intro jm1 c h
                rw [he] at h
                exact error_eq_ok_elim h
            | ok jv2 =>
              have hjv2 := hrecr.2 jv2 hrec2
              have hjm2wf : wfJDict (updateJ k jv2 (updateJ k jv1 jm)) = true :=
                wfJDict_updateJ hjv2.1 (wfJDict_updateJ hx1.1 hj)
              have hjm2keys : (updateJ k jv2 (updateJ k jv1 jm)).map Prod.fst =
                  jm.map Prod.fst := by
                rw [updateJ_map_fst, updateJ_map_fst]
              have hrest := (IH (sizeOf rest)
                  (lt_of_lt_of_le (sizeOf_tail_lt (k, tv) rest) hbnd)).2.2.2.2
                rest le_rfl ht.2 htk.2 (updateJ k jv2 (updateJ k jv1 jm)) hjm2wf
              cases hp2 : vjm_pass2 rm rest (updateJ k jv2 (updateJ k jv1 jm)) with
              | error e2 =>
                have he : vjm_pass2 rm ((k, tv) :: rest) jm = .error e2 := by
                  simp [vjm_pass2, hlj, hx, hrec2, hp2]
                refine ⟨?_, ?_⟩
                · rw [he]
                  intro hc
                  injection hc with h2
                  exact hrest.1 (by rw [hp2, h2])
                · intro jm1 c h
                  rw [he] at h
                  exact error_eq_ok_elim h
              | ok q =>
                obtain ⟨jm1, c0⟩ := q
                have hq := hrest.2 jm1 c0 hp2
                have he : vjm_pass2 rm ((k, tv) :: rest) jm = .ok (jm1, c0 + 1) := by
                  simp [vjm_pass2, hlj, hx, hrec2, hp2]
                refine ⟨?_, ?_⟩
                · rw [he]
                  exact ok_ne_error _ _
                · intro jm1x cx h
                  rw [he] at h
                  injection h with h2
                  injection h2 with hja hcb
                  subst hja
                  subst hcb
                  have hrkeys : ∀ e2 ∈ rest, e2.1 ≠ k := by
                    intro e2 he2 hcon
                    exact hknmem (hcon ▸ List.mem_map_of_mem Prod.fst he2)
                  have hlk1 : lookupJ k jm1 = some jv2 := by
                    rw [hq.2.2.2.2.2 k hrkeys]
                    apply lookupJ_updateJ_self
                    rw [lookupJ_isSome_mem, updateJ_map_fst]
                    apply lookupJ_isSome_mem.mp
                    rw [hlj]
                    rfl
                  refine ⟨?_, ?_, hq.2.2.1, ?_, ?_, ?_⟩
                  · rw [hq.1, hjm2keys]
                  · rw [List.length_cons, hq.2.1]
                  · intro e2 he2
                    rcases List.mem_cons.mp he2 with h3 | h3
                    · subst h3
                      show (lookupJ k jm).isSome = true
                      rw [hlj]
                      rfl
                    · have h4 := hq.2.2.2.1 e2 h3
                      rw [lookupJ_isSome_mem, hjm2keys] at h4
                      rw [lookupJ_isSome_mem]
                      exact h4
                  · rw [conformsDict, hlk1]
                    show (conforms jv2 tv && conformsDict jm1 rest) = true
                    rw [Bool.and_eq_true]
                    exact ⟨hjv2.2, hq.2.2.2.2.1⟩
                  · intro k2 hke
                    have hkk2 : k ≠ k2 := hke (k, tv) (List.mem_cons_self _ _)
                    have hrk2 : ∀ e2 ∈ rest, e2.1 ≠ k2 :=
                      fun e2 he2 => hke e2 (List.mem_cons_of_mem _ he2)
                    rw [hq.2.2.2.2.2 k2 hrk2, lookupJ_updateJ_ne hkk2,
                      lookupJ_updateJ_ne hkk2]
  have hvjm : ∀ t, sizeOf t ≤ n → wfT t = true → ∀ j, wfJ j = true → VjmProp rm j t := by
    intro t hbnd ht j hj
    cases t with
    | prim pt =>
      have he : validate_jmessage rm j (.prim pt) =
          .error (.input "invalid json massage: expected dict or list") := by
        simp [validate_jmessage]
      refine ⟨?_, ?_⟩
      · rw [he]
        exact error_ne_of_verror (input_ne_counter (by decide))
      · intro j1 h
        rw [he] at h
        exact error_eq_ok_elim h
    | regex pat =>
      have he : validate_jmessage rm j (.regex pat) =
          .error (.input "invalid json massage: expected dict or list") := by
        simp [validate_jmessage]
      refine ⟨?_, ?_⟩
      · rw [he]
        exact error_ne_of_verror (input_ne_counter (by decide))
      · intro j1 h
        rw [he] at h
        exact error_eq_ok_elim h
    | tdict tkvs =>
      cases j with
      | dict pkvs =>
        rw [wfJ, Bool.and_eq_true] at hj
        rw [wfT, Bool.and_eq_true] at ht
        have hbk : sizeOf tkvs ≤ n := le_of_lt (lt_of_lt_of_le (sizeOf_tdict_gt tkvs) hbnd)
        have hp1 := hpass1 tkvs hbk ht.2 pkvs hj.2
        cases h1 : vjm_pass1 rm pkvs tkvs with
        | error e =>
          have he : validate_jmessage rm (.dict pkvs) (.tdict tkvs) = .error e := by
            simp [validate_jmessage, h1]
          refine ⟨?_, ?_⟩
          · rw [he]
            intro hc
            injection hc with h2
            exact hp1.1 (by rw [h1, h2])
          · intro j1 h
            rw [he] at h
            exact error_eq_ok_elim h
        | ok p =>
          obtain ⟨kept, c1⟩ := p
          have hk := hp1.2 kept c1 h1
          have hkeysnd : nodupKeys (kept.map Prod.fst) = true := by
            rw [hk.1]
            exact nodupKeys_filter _ hj.1
          have hp2 := hpass2 tkvs hbk ht.2 ht.1 kept hk.2.2
          cases h2 : vjm_pass2 rm tkvs kept with
          | error e =>
            have he : validate_jmessage rm (.dict pkvs) (.tdict tkvs) = .error e := by
              simp [validate_jmessage, h1, h2]
            refine ⟨?_, ?_⟩
            · rw [he]
              intro hc
              injection hc with h2e
              exact hp2.1 (by rw [h2, h2e])
            · intro j1 h
              rw [he] at h
              exact error_eq_ok_elim h
          | ok q =>
            obtain ⟨kept2, c2⟩ := q
            have hq := hp2.2 kept2 c2 h2
            have hs1 : ∀ x ∈ kept.map Prod.fst, x ∈ tkvs.map Prod.fst := by
              intro x hx
              rw [hk.1] at hx
              have hm := List.mem_filter.mp hx
              exact lookupT_isSome_mem.mp hm.2
            have hs2 : ∀ x ∈ tkvs.map Prod.fst, x ∈ kept.map Prod.fst := by
              intro x hx
              obtain ⟨e, he2, hex⟩ := List.mem_map.mp hx
              rw [← hex]
              exact lookupJ_isSome_mem.mp (hq.2.2.2.1 e he2)
            have hlen : kept.length = tkvs.length := by
              have hll := nodup_len_eq (nodupKeys_iff.mp hkeysnd) (nodupKeys_iff.mp ht.1)
                hs1 hs2
              simpa using hll
            have hcnt : ¬ (c1 + c2 ≠ tkvs.length * 2) := by
              rw [hk.2.1, hq.2.1, hlen]
              omega
            have he : validate_jmessage rm (.dict pkvs) (.tdict tkvs) =
                .ok (.dict kept2) := by
              simp [validate_jmessage, h1, h2, hcnt]
            refine ⟨?_, ?_⟩
            · rw [he]
              exact ok_ne_error _ _
            · intro j1 h
              rw [he] at h
              injection h with h2j
              subst h2j
              constructor
              · rw [wfJ, Bool.and_eq_true]
                refine ⟨?_, hq.2.2.1⟩
                rw [hq.1]
                exact hkeysnd
              · rw [conforms_dict_eq, Bool.and_eq_true]
                refine ⟨?_, hq.2.2.2.2.1⟩
                apply keySetEq_of_subsets
                · intro x hx
                  rw [hq.1] at hx
                  exact hs1 x hx
                · intro x hx
                  rw [hq.1]
                  exact hs2 x hx
      | null =>
        have he : validate_jmessage rm JValue.null (.tdict tkvs) =
            .error (.pytype "AttributeError") := by
          simp [validate_jmessage]
        refine ⟨?_, ?_⟩
        · rw [he]
          exact error_ne_of_verror (pytype_ne_counter _)
        · intro j1 h
          rw [he] at h
          exact error_eq_ok_elim h
      | bool bv =>
        have he : validate_jmessage rm (JValue.bool bv) (.tdict tkvs) =
            .error (.pytype "AttributeError") := by
          simp [validate_jmessage]
        refine ⟨?_, ?_⟩
        · rw [he]
          exact error_ne_of_verror (pytype_ne_counter _)
        · intro j1 h
          rw [he] at h
          exact error_eq_ok_elim h
      | int nn =>
        have he : validate_jmessage rm (JValue.int nn) (.tdict tkvs) =
            .error (.pytype "AttributeError") := by
          simp [validate_jmessage]
        refine ⟨?_, ?_⟩
        · rw [he]
          exact error_ne_of_verror (pytype_ne_counter _)
        · intro j1 h
          rw [he] at h
          exact error_eq_ok_elim h
      | str s =>
        have he : validate_jmessage rm (JValue.str s) (.tdict tkvs) =
            .error (.pytype "AttributeError") := by
          simp [validate_jmessage]
        refine ⟨?_, ?_⟩
        · rw [he]
          exact error_ne_of_verror (pytype_ne_counter _)
        · intro j1 h
          rw [he] at h
          exact error_eq_ok_elim h
      | list xs =>
        have he : validate_jmessage rm (JValue.list xs) (.tdict tkvs) =
            .error (.pytype "AttributeError") := by
          simp [validate_jmessage]
        refine ⟨?_, ?_⟩
        · rw [he]
          exact error_ne_of_verror (pytype_ne_counter _)
        · intro j1 h
          rw [he] at h
          exact error_eq_ok_elim h
    | tlist ts =>
      cases j with
      | null =>
        have he : validate_jmessage rm JValue.null (.tlist ts) =
            .error (.pytype "TypeError") := by
          simp [validate_jmessage]
        refine ⟨?_, ?_⟩
        · rw [he]
          exact error_ne_of_verror (pytype_ne_counter _)
        · intro j1 h
          rw [he] at h
          exact error_eq_ok_elim h
      | bool bv =>
        have he : validate_jmessage rm (JValue.bool bv) (.tlist ts) =
            .error (.pytype "TypeError") := by
          simp [validate_jmessage]
        refine ⟨?_, ?_⟩
        · rw [he]
          exact error_ne_of_verror (pytype_ne_counter _)
        · intro j1 h
          rw [he] at h
          exact error_eq_ok_elim h
      | int nn =>
        have he : validate_jmessage rm (JValue.int nn) (.tlist ts) =
            .error (.pytype "TypeError") := by
          simp [validate_jmessage]
        refine ⟨?_, ?_⟩
        · rw [he]
          exact error_ne_of_verror (pytype_ne_counter _)
        · intro j1 h
          rw [he] at h
          exact error_eq_ok_elim h
      | list xs =>
        cases ts with
        | nil =>
          by_cases hxe : xs.isEmpty
          · have he : validate_jmessage rm (JValue.list xs) (.tlist []) =
                .ok (JValue.list xs) := by
              simp [validate_jmessage, hxe]
            refine ⟨?_, ?_⟩
            · rw [he]
              exact ok_ne_error _ _
            · intro j1 h
              rw [he] at h
              injection h with h2
              subst h2
              exact ⟨hj, conforms_tlist_nil _⟩
          · have he : validate_jmessage rm (JValue.list xs) (.tlist []) =
                .error (.pytype "IndexError") := by
              simp [validate_jmessage, hxe]
            refine ⟨?_, ?_⟩
            · rw [he]
              exact error_ne_of_verror (pytype_ne_counter _)
            · intro j1 h
              rw [he] at h
              exact error_eq_ok_elim h
        | cons t0 tr =>
          have hxl : wfJList xs = true := by
            rw [wfJ] at hj
            exact hj
          have ht0 : wfT t0 = true := by
            rw [wfT] at ht
            rw [wfTList, Bool.and_eq_true] at ht
            exact ht.1
          have hes := (IH (sizeOf t0) (lt_of_lt_of_le (sizeOf_tlist_head t0 tr) hbnd)).2.2.1
            t0 le_rfl ht0 xs hxl
          cases hel : validate_list_elems rm xs t0 with
          | error e =>
            have he : validate_jmessage rm (JValue.list xs) (.tlist (t0 :: tr)) =
                .error e := by
              simp [validate_jmessage, hel]
            refine ⟨?_, ?_⟩
            · rw [he]
              intro hc
              injection hc with h2
              exact hes.1 (by rw [hel, h2])
            · intro j1 h
              rw [he] at h
              exact error_eq_ok_elim h
          | ok p =>
            obtain ⟨bb, ys⟩ := p
            have hq := hes.2 bb ys hel
            cases bb with
            | true =>
              have he : validate_jmessage rm (JValue.list xs) (.tlist (t0 :: tr)) =
                  .ok (JValue.list ys) := by
                simp [validate_jmessage, hel]
              refine ⟨?_, ?_⟩
              · rw [he]
                exact ok_ne_error _ _
              · intro j1 h
                rw [he] at h
                injection h with h2
                subst h2
                refine ⟨by rw [wfJ]; exact hq.1, ?_⟩
                rw [conforms_list_eq]
                exact hq.2 rfl
            | false =>
              have he : validate_jmessage rm (JValue.list xs) (.tlist (t0 :: tr)) =
                  .error (.input "Not every element matches the element template") := by
                simp [validate_jmessage, hel]
              refine ⟨?_, ?_⟩
              · rw [he]
                exact error_ne_of_verror (input_ne_counter (by decide))
              · intro j1 h
                rw [he] at h
                exact error_eq_ok_elim h
      | dict kvs =>
        cases ts with
        | nil =>
          by_cases hxe : kvs.isEmpty
          · have he : validate_jmessage rm (JValue.dict kvs) (.tlist []) =
                .ok (JValue.dict kvs) := by
              simp [validate_jmessage, hxe]
            refine ⟨?_, ?_⟩
            · rw [he]
              exact ok_ne_error _ _
            · intro j1 h
              rw [he] at h
              injection h with h2
              subst h2
              exact ⟨hj, conforms_tlist_nil _⟩
          · have he : validate_jmessage rm (JValue.dict kvs) (.tlist []) =
                .error (.pytype "IndexError") := by
              simp [validate_jmessage, hxe]
            refine ⟨?_, ?_⟩
            · rw [he]
              exact error_ne_of_verror (pytype_ne_counter _)
            · intro j1 h
              rw [he] at h
              exact error_eq_ok_elim h
        | cons t0 tr =>
          have ht0 : wfT t0 = true := by
            rw [wfT] at ht
            rw [wfTList, Bool.and_eq_true] at ht
            exact ht.1
          have hes := (IH (sizeOf t0) (lt_of_lt_of_le (sizeOf_tlist_head t0 tr) hbnd)).2.2.1
            t0 le_rfl ht0 (kvs.map (fun e => JValue.str e.1)) (wfJList_map_str Prod.fst kvs)
          cases hel : validate_list_elems rm (kvs.map (fun e => JValue.str e.1)) t0 with
          | error e =>
            have he : validate_jmessage rm (JValue.dict kvs) (.tlist (t0 :: tr)) =
                .error e := by
              simp [validate_jmessage, hel]
            refine ⟨?_, ?_⟩
            · rw [he]
              intro hc
              injection hc with h2
              exact hes.1 (by rw [hel, h2])
            · intro j1 h
              rw [he] at h
              exact error_eq_ok_elim h
          | ok p =>
            obtain ⟨bb, ys⟩ := p
            cases bb with
            | true =>
              have he : validate_jmessage rm (JValue.dict kvs) (.tlist (t0 :: tr)) =
                  .ok (JValue.dict kvs) := by
                simp [validate_jmessage, hel]
              refine ⟨?_, ?_⟩
              · rw [he]
                exact ok_ne_error _ _
              · intro j1 h
                rw [he] at h
                injection h with h2
                subst h2
                exact ⟨hj, by simp [conforms]⟩
            | false =>
              have he : validate_jmessage rm (JValue.dict kvs) (.tlist (t0 :: tr)) =
                  .error (.input "Not every element matches the element template") := by
                simp [validate_jmessage, hel]
              refine ⟨?_, ?_⟩
              · rw [he]
                exact error_ne_of_verror (input_ne_counter (by decide))
              · intro j1 h
                rw [he] at h
                exact error_eq_ok_elim h
      | str s =>
        cases ts with
        | nil =>
          by_cases hxe : s.isEmpty
          · have he : validate_jmessage rm (JValue.str s) (.tlist []) =
                .ok (JValue.str s) := by
              simp [validate_jmessage, hxe]
            refine ⟨?_, ?_⟩
            · rw [he]
              exact ok_ne_error _ _
            · intro j1 h
              rw [he] at h
              injection h with h2
              subst h2
              exact ⟨hj, conforms_tlist_nil _⟩
          · have he : validate_jmessage rm (JValue.str s) (.tlist []) =
                .error (.pytype "IndexError") := by
              simp [validate_jmessage, hxe]
            refine ⟨?_, ?_⟩
            · rw [he]
              exact error_ne_of_verror (pytype_ne_counter _)
            · intro j1 h
              rw [he] at h
              exact error_eq_ok_elim h
        | cons t0 tr =>
          have ht0 : wfT t0 = true := by
            rw [wfT] at ht
            rw [wfTList, Bool.and_eq_true] at ht
            exact ht.1
          have hes := (IH (sizeOf t0) (lt_of_lt_of_le (sizeOf_tlist_head t0 tr) hbnd)).2.2.1
            t0 le_rfl ht0 (s.data.map (fun c => JValue.str (String.mk [c])))
            (wfJList_map_str (fun c => String.mk [c]) s.data)
          cases hel : validate_list_elems rm
              (s.data.map (fun c => JValue.str (String.mk [c]))) t0 with
          | error e =>
            have he : validate_jmessage rm (JValue.str s) (.tlist (t0 :: tr)) =
                .error e := by
              simp [validate_jmessage, hel]
            refine ⟨?_, ?_⟩
            · rw [he]
              intro hc
              injection hc with h2
              exact hes.1 (by rw [hel, h2])
            · intro j1 h
              rw [he] at h
              exact error_eq_ok_elim h
          | ok p =>
            obtain ⟨bb, ys⟩ := p
            cases bb with
            | true =>
              have he : validate_jmessage rm (JValue.str s) (.tlist (t0 :: tr)) =
                  .ok (JValue.str s) := by
                simp [validate_jmessage, hel]
              refine ⟨?_, ?_⟩
              · rw [he]
                exact ok_ne_error _ _
              · intro j1 h
                rw [he] at h
                injection h with h2
                subst h2
                exact ⟨hj, by simp [conforms]⟩
            | false =>
              have he : validate_jmessage rm (JValue.str s) (.tlist (t0 :: tr)) =
                  .error (.input "Not every element matches the element template") := by
                simp [validate_jmessage, hel]
              refine ⟨?_, ?_⟩
              · rw [he]
                exact error_ne_of_verror (input_ne_counter (by decide))
              · intro j1 h
                rw [he] at h
                exact error_eq_ok_elim h
  have hvt : ∀ t, sizeOf t ≤ n → wfT t = true → ∀ v, wfJ v = true → VtProp rm v t := by
    intro t hbnd ht v hv
    cases v with
    | null =>
      have he : validate_type rm JValue.null t = .ok (false, JValue.null) := by
        simp [validate_type]
      refine ⟨?_, ?_⟩
      · rw [he]
        exact ok_ne_error _ _
      · intro b v1 h
        rw [he] at h
        injection h with h2
        injection h2 with hb hv1
        subst hb
        subst hv1
        exact ⟨by rw [wfJ], fun hc => by cases hc⟩
    | bool bv =>
      cases t with
      | prim pt =>
        have he : validate_type rm (JValue.bool bv) (.prim pt) =
            .ok (validate_python_type (JValue.bool bv) pt, JValue.bool bv) := by
          simp [validate_type]
        refine ⟨?_, ?_⟩
        · rw [he]
          exact ok_ne_error _ _
        · intro b v1 h
          rw [he] at h
          injection h with h2
          injection h2 with hb hv1
          subst hb
          subst hv1
          exact ⟨hv, fun _ => conforms_prim _ _⟩
      | regex pat =>
        have he : validate_type rm (JValue.bool bv) (.regex pat) =
            .ok (rm pat (JValue.bool bv), JValue.bool bv) := by
          simp [validate_type]
        refine ⟨?_, ?_⟩
        · rw [he]
          exact ok_ne_error _ _
        · intro b v1 h
          rw [he] at h
          injection h with h2
          injection h2 with hb hv1
          subst hb
          subst hv1
          exact ⟨hv, fun _ => conforms_regex _ _⟩
      | tdict tkvs =>
        have hjm : validate_jmessage rm (JValue.bool bv) (.tdict tkvs) =
            .error (.pytype "AttributeError") := by
          simp [validate_jmessage]
        have he : validate_type rm (JValue.bool bv) (.tdict tkvs) =
            .error (.pytype "AttributeError") := by
          simp [validate_type, hjm]
        refine ⟨?_, ?_⟩
        · rw [he]
          exact error_ne_of_verror (pytype_ne_counter _)
        · intro b v1 h
          rw [he] at h
          exact error_eq_ok_elim h
      | tlist ts =>
        by_cases hf : jfalsy (JValue.bool bv)
        · have he : validate_type rm (JValue.bool bv) (.tlist ts) =
              .ok (true, JValue.bool bv) := by
            rw [validate_type.eq_def]
            simp [hf]
          refine ⟨?_, ?_⟩
          · rw [he]
            exact ok_ne_error _ _
          · intro b v1 h
            rw [he] at h
            injection h with h2
            injection h2 with hb hv1
            subst hb
            subst hv1
            refine ⟨hv, fun _ => ?_⟩
            cases ts with
            | nil => exact conforms_tlist_nil _
            | cons t0 tr => simp [conforms]
        · cases ts with
          | nil =>
            have he : validate_type rm (JValue.bool bv) (.tlist []) =
                .error (.pytype "IndexError") := by
              simp [validate_type, hf]
            refine ⟨?_, ?_⟩
            · rw [he]
              exact error_ne_of_verror (pytype_ne_counter _)
            · intro b v1 h
              rw [he] at h
              exact error_eq_ok_elim h
          | cons t0 tr =>
            have he : validate_type rm (JValue.bool bv) (.tlist (t0 :: tr)) =
                .error (.pytype "TypeError") := by
              simp [validate_type, hf]
            refine ⟨?_, ?_⟩
            · rw [he]
              exact error_ne_of_verror (pytype_ne_counter _)
            · intro b v1 h
              rw [he] at h
              exact error_eq_ok_elim h
    | int nn =>
      cases t with
      | prim pt =>
        have he : validate_type rm (JValue.int nn) (.prim pt) =
            .ok (validate_python_type (JValue.int nn) pt, JValue.int nn) := by
          simp [validate_type]
        refine ⟨?_, ?_⟩
        · rw [he]
          exact ok_ne_error _ _
        · intro b v1 h
          rw [he] at h
          injection h with h2
          injection h2 with hb hv1
          subst hb
          subst hv1
          exact ⟨hv, fun _ => conforms_prim _ _⟩
      | regex pat =>
        have he : validate_type rm (JValue.int nn) (.regex pat) =
            .ok (rm pat (JValue.int nn), JValue.int nn) := by
          simp [validate_type]
        refine ⟨?_, ?_⟩
        · rw [he]
          exact ok_ne_error _ _
        · intro b v1 h
          rw [he] at h
          injection h with h2
          injection h2 with hb hv1
          subst hb
          subst hv1
          exact ⟨hv, fun _ => conforms_regex _ _⟩
      | tdict tkvs =>
        have hjm : validate_jmessage rm (JValue.int nn) (.tdict tkvs) =
            .error (.pytype "AttributeError") := by
          simp [validate_jmessage]
        have he : validate_type rm (JValue.int nn) (.tdict tkvs) =
            .error (.pytype "AttributeError") := by
          simp [validate_type, hjm]
        refine ⟨?_, ?_⟩
        · rw [he]
          exact error_ne_of_verror (pytype_ne_counter _)
        · intro b v1 h
          rw [he] at h
          exact error_eq_ok_elim h
      | tlist ts =>
        by_cases hf : jfalsy (JValue.int nn)
        · have he : validate_type rm (JValue.int nn) (.tlist ts) =
              .ok (true, JValue.int nn) := by
            rw [validate_type.eq_def]
            simp [hf]
          refine ⟨?_, ?_⟩
          · rw [he]
            exact ok_ne_error _ _
          · intro b v1 h
            rw [he] at h
            injection h with h2
            injection h2 with hb hv1
            subst hb
            subst hv1
            refine ⟨hv, fun _ => ?_⟩
            cases ts with
            | nil => exact conforms_tlist_nil _
            | cons t0 tr => simp [conforms]
        · cases ts with
          | nil =>
            have he : validate_type rm (JValue.int nn) (.tlist []) =
                .error (.pytype "IndexError") := by
              simp [validate_type, hf]
            refine ⟨?_, ?_⟩
            · rw [he]
              exact error_ne_of_verror (pytype_ne_counter _)
            · intro b v1 h
              rw [he] at h
              exact error_eq_ok_elim h
          | cons t0 tr =>
            have he : validate_type rm (JValue.int nn) (.tlist (t0 :: tr)) =
                .error (.pytype "TypeError") := by
              simp [validate_type, hf]
            refine ⟨?_, ?_⟩
            · rw [he]
              exact error_ne_of_verror (pytype_ne_counter _)
            · intro b v1 h
              rw [he] at h
              exact error_eq_ok_elim h
    | str s =>
      cases t with
      | prim pt =>
        have he : validate_type rm (JValue.str s) (.prim pt) =
            .ok (validate_python_type (JValue.str s) pt, JValue.str s) := by
          simp [validate_type]
        refine ⟨?_, ?_⟩
        · rw [he]
          exact ok_ne_error _ _
        · intro b v1 h
          rw [he] at h
          injection h with h2
          injection h2 with hb hv1
          subst hb
          subst hv1
          exact ⟨hv, fun _ => conforms_prim _ _⟩
      | regex pat =>
        have he : validate_type rm (JValue.str s) (.regex pat) =
            .ok (rm pat (JValue.str s), JValue.str s) := by
          simp [validate_type]
        refine ⟨?_, ?_⟩
        · rw [he]
          exact ok_ne_error _ _
        · intro b v1 h
          rw [he] at h
          injection h with h2
          injection h2 with hb hv1
          subst hb
          subst hv1
          exact ⟨hv, fun _ => conforms_regex _ _⟩
      | tdict tkvs =>
        have hjm : validate_jmessage rm (JValue.str s) (.tdict tkvs) =
            .error (.pytype "AttributeError") := by
          simp [validate_jmessage]
        have he : validate_type rm (JValue.str s) (.tdict tkvs) =
            .error (.pytype "AttributeError") := by
          simp [validate_type, hjm]
        refine ⟨?_, ?_⟩
        · rw [he]
          exact error_ne_of_verror (pytype_ne_counter _)
        · intro b v1 h
          rw [he] at h
          exact error_eq_ok_elim h
      | tlist ts =>
        by_cases hf : jfalsy (JValue.str s)
        · have he : validate_type rm (JValue.str s) (.tlist ts) =
              .ok (true, JValue.str s) := by
            rw [validate_type.eq_def]
            simp [hf]
          refine ⟨?_, ?_⟩
          · rw [he]
            exact ok_ne_error _ _
          · intro b v1 h
            rw [he] at h
            injection h with h2
            injection h2 with hb hv1
            subst hb
            subst hv1
            refine ⟨hv, fun _ => ?_⟩
            cases ts with
            | nil => exact conforms_tlist_nil _
            | cons t0 tr => simp [conforms]
        · cases ts with
          | nil =>
            have he : validate_type rm (JValue.str s) (.tlist []) =
                .error (.pytype "IndexError") := by
              simp [validate_type, hf]
            refine ⟨?_, ?_⟩
            · rw [he]
              exact error_ne_of_verror (pytype_ne_counter _)
            · intro b v1 h
              rw [he] at h
              exact error_eq_ok_elim h
          | cons t0 tr =>
            have ht0 : wfT t0 = true := by
              rw [wfT] at ht
              rw [wfTList, Bool.and_eq_true] at ht
              exact ht.1
            have hes := (IH (sizeOf t0)
                (lt_of_lt_of_le (sizeOf_tlist_head t0 tr) hbnd)).2.2.1
              t0 le_rfl ht0 (s.data.map (fun c => JValue.str (String.mk [c])))
              (wfJList_map_str (fun c => String.mk [c]) s.data)
            cases hel : validate_list_elems rm
                (s.data.map (fun c => JValue.str (String.mk [c]))) t0 with
            | error e =>
              have he : validate_type rm (JValue.str s) (.tlist (t0 :: tr)) =
                  .error e := by
                simp [validate_type, hf, hel]
              refine ⟨?_, ?_⟩
              · rw [he]
                intro hc
                injection hc with h2
                exact hes.1 (by rw [hel, h2])
              · intro b v1 h
                rw [he] at h
                exact error_eq_ok_elim h
            | ok p =>
              obtain ⟨bb, ys⟩ := p
              have he : validate_type rm (JValue.str s) (.tlist (t0 :: tr)) =
                  .ok (bb, JValue.str s) := by
                simp [validate_type, hf, hel]
              refine ⟨?_, ?_⟩
              · rw [he]
                exact ok_ne_error _ _
              · intro b v1 h
                rw [he] at h
                injection h with h2
                injection h2 with hb hv1
                subst hb
                subst hv1
                exact ⟨hv, fun _ => by simp [conforms]⟩
    | list xs =>
      cases t with
      | prim pt =>
        have he : validate_type rm (JValue.list xs) (.prim pt) =
            .ok (validate_python_type (JValue.list xs) pt, JValue.list xs) := by
          simp [validate_type]
        refine ⟨?_, ?_⟩
        · rw [he]
          exact ok_ne_error _ _
        · intro b v1 h
          rw [he] at h
          injection h with h2
          injection h2 with hb hv1
          subst hb
          subst hv1
          exact ⟨hv, fun _ => conforms_prim _ _⟩
      | regex pat =>
        have he : validate_type rm (JValue.list xs) (.regex pat) =
            .ok (rm pat (JValue.list xs), JValue.list xs) := by
          simp [validate_type]
        refine ⟨?_, ?_⟩
        · rw [he]
          exact ok_ne_error _ _
        · intro b v1 h
          rw [he] at h
          injection h with h2
          injection h2 with hb hv1
          subst hb
          subst hv1
          exact ⟨hv, fun _ => conforms_regex _ _⟩
      | tdict tkvs =>
        have hjm : validate_jmessage rm (JValue.list xs) (.tdict tkvs) =
            .error (.pytype "AttributeError") := by
          simp [validate_jmessage]
        have he : validate_type rm (JValue.list xs) (.tdict tkvs) =
            .error (.pytype "AttributeError") := by
          simp [validate_type, hjm]
        refine ⟨?_, ?_⟩
        · rw [he]
          exact error_ne_of_verror (pytype_ne_counter _)
        · intro b v1 h
          rw [he] at h
          exact error_eq_ok_elim h
      | tlist ts =>
        by_cases hf : jfalsy (JValue.list xs)
        · have he : validate_type rm (JValue.list xs) (.tlist ts) =
              .ok (true, JValue.list xs) := by
            rw [validate_type.eq_def]
            simp [hf]
          refine ⟨?_, ?_⟩
          · rw [he]
            exact ok_ne_error _ _
          · intro b v1 h
            rw [he] at h
            injection h with h2
            injection h2 with hb hv1
            subst hb
            subst hv1
            refine ⟨hv, fun _ => ?_⟩
            have hxe : xs = [] := by
              rw [jfalsy] at hf
              exact List.isEmpty_iff.mp hf
            subst hxe
            cases ts with
            | nil => exact conforms_tlist_nil _
            | cons t0 tr =>
              rw [conforms_list_eq, conformsList]
        · cases ts with
          | nil =>
            have he : validate_type rm (JValue.list xs) (.tlist []) =
                .error (.pytype "IndexError") := by
              simp [validate_type, hf]
            refine ⟨?_, ?_⟩
            · rw [he]
              exact error_ne_of_verror (pytype_ne_counter _)
            · intro b v1 h
              rw [he] at h
              exact error_eq_ok_elim h
          | cons t0 tr =>
            have hxl : wfJList xs = true := by
              rw [wfJ] at hv
              exact hv
            have ht0 : wfT t0 = true := by
              rw [wfT] at ht
              rw [wfTList, Bool.and_eq_true] at ht
              exact ht.1
            have hes := (IH (sizeOf t0)
                (lt_of_lt_of_le (sizeOf_tlist_head t0 tr) hbnd)).2.2.1
              t0 le_rfl ht0 xs hxl
            cases hel : validate_list_elems rm xs t0 with
            | error e =>
              have he : validate_type rm (JValue.list xs) (.tlist (t0 :: tr)) =
                  .error e := by
                simp [validate_type, hf, hel]
              refine ⟨?_, ?_⟩
              · rw [he]
                intro hc
                injection hc with h2
                exact hes.1 (by rw [hel, h2])
              · intro b v1 h
                rw [he] at h
                exact error_eq_ok_elim h
            | ok p =>
              obtain ⟨bb, ys⟩ := p
              have hq := hes.2 bb ys hel
              have he : validate_type rm (JValue.list xs) (.tlist (t0 :: tr)) =
                  .ok (bb, JValue.list ys) := by
                simp [validate_type, hf, hel]
              refine ⟨?_, ?_⟩
              · rw [he]
                exact ok_ne_error _ _
              · intro b v1 h
                rw [he] at h
                injection h with h2
                injection h2 with hb hv1
                subst hb
                subst hv1
                refine ⟨by rw [wfJ]; exact hq.1, fun hbt => ?_⟩
                rw [conforms_list_eq]
                exact hq.2 hbt
    | dict kvs =>
      cases t with
      | prim pt =>
        have he : validate_type rm (JValue.dict kvs) (.prim pt) =
            .ok (validate_python_type (JValue.dict kvs) pt, JValue.dict kvs) := by
          simp [validate_type]
        refine ⟨?_, ?_⟩
        · rw [he]
          exact ok_ne_error _ _
        · intro b v1 h
          rw [he] at h
          injection h with h2
          injection h2 with hb hv1
          subst hb
          subst hv1
          exact ⟨hv, fun _ => conforms_prim _ _⟩
      | regex pat =>
        have he : validate_type rm (JValue.dict kvs) (.regex pat) =
            .ok (rm pat (JValue.dict kvs), JValue.dict kvs) := by
          simp [validate_type]
        refine ⟨?_, ?_⟩
        · rw [he]
          exact ok_ne_error _ _
        · intro b v1 h
          rw [he] at h
          injection h with h2
          injection h2 with hb hv1
          subst hb
          subst hv1
          exact ⟨hv, fun _ => conforms_regex _ _⟩
      | tdict tkvs =>
        have hm := hvjm (Template.tdict tkvs) hbnd ht (JValue.dict kvs) hv
        cases hjx : validate_jmessage rm (JValue.dict kvs) (.tdict tkvs) with
        | error e =>
          have he : validate_type rm (JValue.dict kvs) (.tdict tkvs) = .error e := by
            simp [validate_type, hjx]
          refine ⟨?_, ?_⟩
          · rw [he]
            intro hc
            injection hc with h2
            exact hm.1 (by rw [hjx, h2])
          · intro b v1 h
            rw [he] at h
            exact error_eq_ok_elim h
        | ok j1 =>
          have hq := hm.2 j1 hjx
          have he : validate_type rm (JValue.dict kvs) (.tdict tkvs) = .ok (true, j1) := by
            simp [validate_type, hjx]
          refine ⟨?_, ?_⟩
          · rw [he]
            exact ok_ne_error _ _
          · intro b v1 h
            rw [he] at h
            injection h with h2
            injection h2 with hb hv1
            subst hb
            subst hv1
            exact ⟨hq.1, fun _ => hq.2⟩
      | tlist ts =>
        by_cases hf : jfalsy (JValue.dict kvs)
        · have he : validate_type rm (JValue.dict kvs) (.tlist ts) =
              .ok (true, JValue.dict kvs) := by
            rw [validate_type.eq_def]
            simp [hf]
          refine ⟨?_, ?_⟩
          · rw [he]
            exact ok_ne_error _ _
          · intro b v1 h
            rw [he] at h
            injection h with h2
            injection h2 with hb hv1
            subst hb
            subst hv1
            refine ⟨hv, fun _ => ?_⟩
            cases ts with
            | nil => exact conforms_tlist_nil _
            | cons t0 tr => simp [conforms]
        · cases ts with
          | nil =>
            have he : validate_type rm (JValue.dict kvs) (.tlist []) =
                .error (.pytype "IndexError") := by
              simp [validate_type, hf]
            refine ⟨?_, ?_⟩
            · rw [he]
              exact error_ne_of_verror (pytype_ne_counter _)
            · intro b v1 h
              rw [he] at h
              exact error_eq_ok_elim h
          | cons t0 tr =>
            have ht0 : wfT t0 = true := by
              rw [wfT] at ht
              rw [wfTList, Bool.and_eq_true] at ht
              exact ht.1
            have hes := (IH (sizeOf t0)
                (lt_of_lt_of_le (sizeOf_tlist_head t0 tr) hbnd)).2.2.1
              t0 le_rfl ht0 (kvs.map (fun e => JValue.str e.1))
              (wfJList_map_str Prod.fst kvs)
            cases hel : validate_list_elems rm (kvs.map (fun e => JValue.str e.1)) t0 with
            | error e =>
              have he : validate_type rm (JValue.dict kvs) (.tlist (t0 :: tr)) =
                  .error e := by
                simp [validate_type, hf, hel]
              refine ⟨?_, ?_⟩
              · rw [he]
                intro hc
                injection hc with h2
                exact hes.1 (by rw [hel, h2])
              · intro b v1 h
                rw [he] at h
                exact error_eq_ok_elim h
            | ok p =>
              obtain ⟨bb, ys⟩ := p
              have he : validate_type rm (JValue.dict kvs) (.tlist (t0 :: tr)) =
                  .ok (bb, JValue.dict kvs) := by
                simp [validate_type, hf, hel]
              refine ⟨?_, ?_⟩
              · rw [he]
                exact ok_ne_error _ _
              · intro b v1 h
                rw [he] at h
                injection h with h2
                injection h2 with hb hv1
                subst hb
                subst hv1
                exact ⟨hv, fun _ => by simp [conforms]⟩
  have helems : ∀ t0, sizeOf t0 ≤ n → wfT t0 = true →
      ∀ xs, wfJList xs = true → ElemsProp rm xs t0 := by
    intro t0 hbnd ht0 xs
    induction xs with
    | nil =>
      intro _
      have he : validate_list_elems rm [] t0 = .ok (true, []) := by
        simp [validate_list_elems]
      refine ⟨?_, ?_⟩
      · rw [he]
        exact ok_ne_error _ _
      · intro b xs1 h
        rw [he] at h
        injection h with h2
        injection h2 with hb hxs1
        subst hb
        subst hxs1
        exact ⟨by rw [wfJList], fun _ => by rw [conformsList]⟩
    | cons x rest ihe =>
      intro hxs
      rw [wfJList, Bool.and_eq_true] at hxs
      have hihe := ihe hxs.2
      have hvt1 := hvt t0 hbnd ht0 x hxs.1
      cases hx : validate_type rm x t0 with
      | error e =>
        have he : validate_list_elems rm (x :: rest) t0 = .error e := by
          simp [validate_list_elems, hx]
        refine ⟨?_, ?_⟩
        · rw [he]
          intro hc
          injection hc with h2
          exact hvt1.1 (by rw [hx, h2])
        · intro b xs1 h
          rw [he] at h
          exact error_eq_ok_elim h
      | ok p =>
        obtain ⟨b0, x1⟩ := p
        have hx1 := hvt1.2 b0 x1 hx
        cases b0 with
        | false =>
          have he : validate_list_elems rm (x :: rest) t0 = .ok (false, x1 :: rest) := by
            simp [validate_list_elems, hx]
          refine ⟨?_, ?_⟩
          · rw [he]
            exact ok_ne_error _ _
          · intro b xs1 h
            rw [he] at h
            injection h with h2
            injection h2 with hb hxs1
            subst hb
            subst hxs1
            refine ⟨?_, fun hc => by cases hc⟩
            rw [wfJList, Bool.and_eq_true]
            exact ⟨hx1.1, hxs.2⟩
        | true =>
          cases hr : validate_list_elems rm rest t0 with
          | error e =>
            have he : validate_list_elems rm (x :: rest) t0 = .error e := by
              simp [validate_list_elems, hx, hr]
            refine ⟨?_, ?_⟩
            · rw [he]
              intro hc
              injection hc with h2
              exact hihe.1 (by rw [hr, h2])
            · intro b xs1 h
              rw [he] at h
              exact error_eq_ok_elim h
          | ok q =>
            obtain ⟨b1, rest1⟩ := q
            have hq := hihe.2 b1 rest1 hr
            have he : validate_list_elems rm (x :: rest) t0 = .ok (b1, x1 :: rest1) := by
              simp [validate_list_elems, hx, hr]
            refine ⟨?_, ?_⟩
            · rw [he]
              exact ok_ne_error _ _
            · intro b xs1 h
              rw [he] at h
              injection h with h2
              injection h2 with hb hxs1
              subst hb
              subst hxs1
              constructor
              · rw [wfJList, Bool.and_eq_true]
                exact ⟨hx1.1, hq.1⟩
              · intro hbt
                rw [conformsList, Bool.and_eq_true]
                exact ⟨hx1.2 rfl, hq.2 hbt⟩
  exact ⟨hvjm, hvt, helems, hpass1, hpass2⟩

end GlobaLeaks

namespace GlobaLeaks

/-- Instantiation of the master soundness theorem at the exact size bound. -/
theorem validator_vjm_sound (rm : String → JValue → Bool) (j : JValue) (t : Template)
    (hj : wfJ j = true) (ht : wfT t = true) : VjmProp rm j t :=
  (master_all rm (sizeOf t)).1 t le_rfl ht j hj

/-- C8: for every well formed payload and template (python dicts have
pairwise distinct keys), the success counter of `validate_jmessage` always
equals twice the template key count when both passes succeed, so the
Success counter double check failure branch is unreachable. -/
theorem success_counter_unreachable (rm : String → JValue → Bool) (j : JValue)
    (t : Template) (hj : wfJ j = true) (ht : wfT t = true) :
    validate_jmessage rm j t ≠
      .error (VError.input "Success counter double check failure") :=
  (validator_vjm_sound rm j t hj ht).1

/-- C8 witness: a concrete validation never reaches the counter branch. -/
theorem success_counter_unreachable_witness :
    validate_jmessage rm0 (JValue.dict [("a", JValue.int 1)])
        (Template.tdict [("a", Template.prim PyType.int)]) ≠
      .error (VError.input "Success counter double check failure") :=
  success_counter_unreachable rm0 (JValue.dict [("a", JValue.int 1)])
    (Template.tdict [("a", Template.prim PyType.int)])
    (by simp [wfJ, wfJDict, nodupKeys])
    (by simp [wfT, wfTDict, nodupKeys])

/-- C1 (amended): validating a well formed mapping payload against a
mapping template either raises an error (an InputValidationError naming the
offending key, or an uncaught python type error when a value does not have
the container shape of a nested template), or succeeds with a payload whose
key set equals the template key set exactly, recursively through nested
dict and list templates. -/
theorem validate_jmessage_key_sets (rm : String → JValue → Bool)
    (pkvs : List (String × JValue)) (tkvs : List (String × Template))
    (hj : wfJ (JValue.dict pkvs) = true) (ht : wfT (Template.tdict tkvs) = true)
    (j1 : JValue)
    (hok : validate_jmessage rm (JValue.dict pkvs) (Template.tdict tkvs) = .ok j1) :
    conforms j1 (Template.tdict tkvs) = true :=
  ((validator_vjm_sound rm (JValue.dict pkvs) (Template.tdict tkvs) hj ht).2 j1 hok).2

/-- C1 counterexample: an int value under a nested dict template makes
`validate_jmessage` raise an uncaught AttributeError (items on an int), not
an InputValidationError naming the offending key, refuting the claim that
validation failures are always typed errors naming a key. -/
theorem validate_jmessage_attribute_error :
    validate_jmessage rm0 (JValue.dict [("a", JValue.int 5)])
      (Template.tdict [("a", Template.tdict [("b", Template.prim PyType.int)])]) =
      .error (.pytype "AttributeError") := by
  simp [validate_jmessage, vjm_pass1, vjm_pass2, validate_type, lookupT]

/-- C1 witness: a payload with one extra key sanitizes to exactly the
template key set. -/
theorem validate_jmessage_key_sets_witness :
    conforms (JValue.dict [("a", JValue.int 1)])
      (Template.tdict [("a", Template.prim PyType.int)]) = true :=
  validate_jmessage_key_sets rm0 [("a", JValue.int 1), ("extra", JValue.int 2)]
    [("a", Template.prim PyType.int)]
    (by simp [wfJ, wfJDict, nodupKeys])
    (by simp [wfT, wfTDict, nodupKeys])
    (JValue.dict [("a", JValue.int 1)])
    (by simp [validate_jmessage, vjm_pass1, vjm_pass2, vjm_recurse, validate_type,
      lookupT, lookupJ, validate_python_type, pyIntCoercible, jIsNull, updateJ])

end GlobaLeaks
